import Mathlib

/-!
Verification of the CHM external ingestion synchronization subsystem.

This file shallowly embeds the ingestion core of the repository:
  * `app/ingestion/mapper.py`  — partner event normalization,
  * `app/ingestion/client.py`  — partner HTTP client retry/backoff and page
    normalization,
  * `app/ingestion/job.py`     — the ingestion orchestrator,
  * `app/db/repository/runs.py` (`upsert_run`) — the idempotent run upsert,
  * `app/db/repository/pipelines.py` (`list_ingestion_pipelines_with_external_id`).

Python values flowing through the ingestion path (parsed JSON) are embedded as
the inductive `JVal`; the wall clock (`datetime.now(timezone.utc)`) is an
explicit parameter; the run table is a list of rows; datetimes are represented
by their UTC instant in seconds together with a small civil-calendar model of
`datetime.fromisoformat` (a faithful subset: `YYYY-MM-DD[THH:MM[:SS]][+HH:MM]`;
fractional seconds and offset seconds are omitted).  Network effects of the
partner client are embedded as a per-attempt outcome oracle.
-/

/-- Embedded Python/JSON value: the payloads the ingestion path manipulates. -/
inductive JVal where
  | jnull : JVal
  | jbool : Bool → JVal
  | jnum : Int → JVal
  | jstr : String → JVal
  | jarr : List JVal → JVal
  | jobj : List (String × JVal) → JVal

/-- Python `repr` of an embedded value (used by `str` on non-strings and by
error messages using `!r` formatting). -/
def jvalRepr : JVal → String
  | .jnull => "None"
  | .jbool b => if b then "True" else "False"
  | .jnum n => toString n
  | .jstr s => "\x27" ++ s ++ "\x27"
  | .jarr xs => "[" ++ String.intercalate ", " (xs.attach.map (fun x => jvalRepr x.1)) ++ "]"
  | .jobj fs =>
      "\x7b" ++
        String.intercalate ", "
          (fs.attach.map (fun p => "\x27" ++ p.1.1 ++ "\x27: " ++ jvalRepr p.1.2)) ++
      "\x7d"
decreasing_by
  · simp_wf
    have := List.sizeOf_lt_of_mem x.2
    omega
  · simp_wf
    obtain ⟨⟨k, v⟩, hp⟩ := p
    have h1 := List.sizeOf_lt_of_mem hp
    simp at h1 ⊢
    omega

/-- Python `str()` of an embedded value. -/
def jvalStr : JVal → String
  | .jstr s => s
  | v => jvalRepr v

/-- The five canonical run statuses (`RunStatusEnum`). -/
inductive RunStatus where
  | running | success | failed | canceled | skipped
deriving DecidableEq

/-- Python `str.strip` whitespace predicate (ASCII whitespace). -/
def isPySpace (c : Char) : Bool :=
  c = ' ' || c = '\t' || c = '\n' || c = '\r' || c.toNat = 11 || c.toNat = 12

/-- Python `str.strip` on a character list. -/
def pyStripChars (cs : List Char) : List Char :=
  ((cs.dropWhile isPySpace).reverse.dropWhile isPySpace).reverse

/-- Python `str.strip`. -/
def pyStrip (s : String) : String := ⟨pyStripChars s.toList⟩

/-- Python `str.lower` (ASCII). -/
def pyLower (s : String) : String := ⟨s.toList.map Char.toLower⟩

/-- `_STATUS_MAP` from `app/ingestion/mapper.py`, as a lookup function. -/
def STATUS_MAP : String → Option RunStatus
  | "running" => some .running
  | "in_progress" => some .running
  | "queued" => some .running
  | "pending" => some .running
  | "success" => some .success
  | "succeeded" => some .success
  | "completed" => some .success
  | "failed" => some .failed
  | "failure" => some .failed
  | "error" => some .failed
  | "errored" => some .failed
  | "canceled" => some .canceled
  | "cancelled" => some .canceled
  | "aborted" => some .canceled
  | "skipped" => some .skipped
  | _ => none

/-- `normalize_partner_status` from `app/ingestion/mapper.py`.  The argument is
`raw_event.get("status")`: `none` embeds Python `None` (absent key or null). -/
def normalize_partner_status (raw_status : Option JVal) : RunStatus × Option String :=
  match raw_status with
  | none => (.failed, some "Missing source status; defaulted to `failed`")
  | some raw =>
    let normalized := pyLower (pyStrip (jvalStr raw))
    match STATUS_MAP normalized with
    | some mapped => (mapped, none)
    | none =>
        (.failed, some ("Unknown source status `" ++ jvalStr raw ++ "` normalized to `failed`"))

/-- A raw partner run event: a Python dict of parsed-JSON values. -/
abbrev RawEvent := List (String × JVal)

/-- Python `raw_event.get(key)`: absent keys and JSON nulls both give `None`. -/
def pyGet (ev : RawEvent) (key : String) : Option JVal :=
  match List.lookup key ev with
  | none => none
  | some .jnull => none
  | some v => some v

/-- The Python test `value in (None, "")` on an optional value. -/
def isNoneOrEmpty : Option JVal → Bool
  | none => true
  | some (.jstr s) => s == ""
  | some _ => false

/-- `IngestionMappingError` payloads are plain message strings in this model. -/
abbrev MapError := String

/-- `_extract_external_run_id` from `app/ingestion/mapper.py`. -/
def extract_external_run_id (ev : RawEvent) : Except MapError String :=
  let c0 := pyGet ev "external_run_id"
  let c := if isNoneOrEmpty c0 then pyGet ev "id" else c0
  if isNoneOrEmpty c then
    .error "Missing required run identity field `external_run_id` or `id`"
  else
    .ok (jvalStr (c.getD .jnull))

/-- A parsed `datetime` as produced by the modelled `datetime.fromisoformat`:
civil fields plus an optional fixed offset in minutes (`none` = naive). -/
structure PyDateTime where
  year : Nat
  month : Nat
  day : Nat
  hour : Nat
  minute : Nat
  second : Nat
  tzOffsetMinutes : Option Int
deriving DecidableEq

/-- Parse exactly `n` decimal digits, returning the value and the rest. -/
def parseNDigits : Nat → List Char → Option (Nat × List Char)
  | 0, cs => some (0, cs)
  | _ + 1, [] => none
  | n + 1, c :: cs =>
    if c.isDigit then
      match parseNDigits n cs with
      | some (v, rest) => some ((c.toNat - 48) * 10 ^ n + v, rest)
      | none => none
    else none

/-- Consume one expected character. -/
def expectChar (c : Char) : List Char → Option (List Char)
  | [] => none
  | c' :: cs => if c' = c then some cs else none

/-- Gregorian leap-year test. -/
def isLeapYear (y : Nat) : Bool :=
  (y % 4 == 0 && y % 100 != 0) || (y % 400 == 0)

/-- Days in a month of the proleptic Gregorian calendar. -/
def daysInMonth (y m : Nat) : Nat :=
  if m = 2 then (if isLeapYear y then 29 else 28)
  else if m = 4 ∨ m = 6 ∨ m = 9 ∨ m = 11 then 30
  else 31

/-- Parse the trailing UTC-offset part `[+HH:MM|-HH:MM]` of an ISO string. -/
def parseTzTail (cs : List Char) : Option (Option Int) :=
  match cs with
  | [] => some none
  | sign :: rest =>
    if sign = '+' ∨ sign = '-' then
      match parseNDigits 2 rest with
      | none => none
      | some (oh, rest1) =>
        match expectChar ':' rest1 with
        | none => none
        | some rest2 =>
          match parseNDigits 2 rest2 with
          | none => none
          | some (om, rest3) =>
            if rest3 = [] ∧ oh ≤ 23 ∧ om ≤ 59 then
              let total : Int := (oh : Int) * 60 + (om : Int)
              some (some (if sign = '-' then -total else total))
            else none
    else none

/-- Parse the time-of-day part `HH:MM[:SS]` followed by an optional offset. -/
def parseTimeTail (cs : List Char) : Option (Nat × Nat × Nat × Option Int) :=
  match parseNDigits 2 cs with
  | none => none
  | some (hh, r1) =>
    match expectChar ':' r1 with
    | none => none
    | some r2 =>
      match parseNDigits 2 r2 with
      | none => none
      | some (mi, r3) =>
        let secPart : Option (Nat × List Char) :=
          match expectChar ':' r3 with
          | none => some (0, r3)
          | some r4 =>
            match parseNDigits 2 r4 with
            | none => none
            | some (ss, r5) => some (ss, r5)
        match secPart with
        | none => none
        | some (ss, r6) =>
          if hh ≤ 23 ∧ mi ≤ 59 ∧ ss ≤ 59 then
            match parseTzTail r6 with
            | none => none
            | some off => some (hh, mi, ss, off)
          else none

/-- Model of `datetime.fromisoformat` on the subset
`YYYY-MM-DD[THH:MM[:SS]][+HH:MM]` (fractional seconds and offset seconds are
not modelled; out-of-range fields are rejected as in Python). -/
def fromIsoChars (cs : List Char) : Option PyDateTime :=
  match parseNDigits 4 cs with
  | none => none
  | some (y, r1) =>
    match expectChar '-' r1 with
    | none => none
    | some r2 =>
      match parseNDigits 2 r2 with
      | none => none
      | some (mo, r3) =>
        match expectChar '-' r3 with
        | none => none
        | some r4 =>
          match parseNDigits 2 r4 with
          | none => none
          | some (d, r5) =>
            if 1 ≤ y ∧ 1 ≤ mo ∧ mo ≤ 12 ∧ 1 ≤ d ∧ d ≤ daysInMonth y mo then
              match r5 with
              | [] => some ⟨y, mo, d, 0, 0, 0, none⟩
              | sep :: r6 =>
                if sep = 'T' then
                  match parseTimeTail r6 with
                  | none => none
                  | some (hh, mi, ss, off) => some ⟨y, mo, d, hh, mi, ss, off⟩
                else none
            else none

/-- Days since 1970-01-01 of a proleptic-Gregorian civil date. -/
def daysFromCivil (y m d : Int) : Int :=
  let y' := if m ≤ 2 then y - 1 else y
  let era := (if 0 ≤ y' then y' else y' - 399) / 400
  let yoe := y' - era * 400
  let doy := (153 * (if 2 < m then m - 3 else m + 9) + 2) / 5 + d - 1
  let doe := yoe * 365 + yoe / 4 - yoe / 100 + doy
  era * 146097 + doe - 719468

/-- The UTC instant (seconds since epoch) denoted by a parsed datetime, with a
naive datetime read at offset zero: this is `replace(tzinfo=utc)` for naive
values and `astimezone(utc)` for aware ones. -/
def dtUtcSeconds (dt : PyDateTime) : Int :=
  daysFromCivil dt.year dt.month dt.day * 86400
    + (dt.hour : Int) * 3600 + (dt.minute : Int) * 60 + (dt.second : Int)
    - 60 * dt.tzOffsetMinutes.getD 0

/-- The `normalized.endswith("Z")` rewrite `normalized[:-1] + "+00:00"` of
`_parse_utc_timestamp`. -/
def zTo0000 (cs : List Char) : List Char :=
  if cs.getLast? = some 'Z' then cs.dropLast ++ "+00:00".toList else cs

/-- The string-argument body of `_parse_utc_timestamp`: strip, rewrite a
trailing `Z`, parse, normalize to a UTC instant. -/
def parseUtcTimestampChars (original : String) (cs : List Char) :
    Except MapError (Option Int) :=
  let n := zTo0000 (pyStripChars cs)
  match fromIsoChars n with
  | none => .error ("Invalid timestamp value: " ++ original)
  | some dt => .ok (some (dtUtcSeconds dt))

/-- `_parse_utc_timestamp` from `app/ingestion/mapper.py`. -/
def parse_utc_timestamp (value : Option JVal) : Except MapError (Option Int) :=
  if isNoneOrEmpty value then .ok none
  else
    match value with
    | some (.jstr s) => parseUtcTimestampChars s s.toList
    | _ => .error "Timestamp fields must be ISO-8601 strings"

/-- Value of a nonempty all-digit character list. -/
def digitsVal (cs : List Char) : Option Nat :=
  if cs ≠ [] ∧ cs.all Char.isDigit then
    some (cs.foldl (fun a c => a * 10 + (c.toNat - 48)) 0)
  else none

/-- Model of Python `int(s)` on a string: optional sign, decimal digits. -/
def pyIntOfString (s : String) : Option Int :=
  match pyStripChars s.toList with
  | '-' :: rest => (digitsVal rest).map (fun n => -(n : Int))
  | '+' :: rest => (digitsVal rest).map (fun n => (n : Int))
  | cs => (digitsVal cs).map (fun n => (n : Int))

/-- `_as_optional_int` from `app/ingestion/mapper.py`: `None`/`""` give no
value; otherwise the value must be integer-coercible. -/
def as_optional_int (value : Option JVal) : Except MapError (Option Int) :=
  if isNoneOrEmpty value then .ok none
  else
    match value with
    | some (.jstr s) =>
        match pyIntOfString s with
        | some n => .ok (some n)
        | none =>
            .error ("Expected integer-compatible value, got " ++ jvalRepr (.jstr s))
    | some (.jnum n) => .ok (some n)
    | some (.jbool b) => .ok (some (if b then 1 else 0))
    | some v => .error ("Expected integer-compatible value, got " ++ jvalRepr v)
    | none => .ok none

/-- `_as_optional_string` from `app/ingestion/mapper.py`. -/
def as_optional_string (value : Option JVal) : Option String :=
  if isNoneOrEmpty value then none
  else some (jvalStr (value.getD .jnull))

/-- The canonical run repository fields produced by the mapper. -/
structure RunFields where
  external_run_id : String
  status : RunStatus
  started_at : Option Int
  finished_at : Option Int
  duration_seconds : Option Int
  rows_processed : Option Int
  error_message : Option String
  status_reason : Option String
  payload : RawEvent

/-- `map_partner_run_event` from `app/ingestion/mapper.py`. -/
def map_partner_run_event (raw_event : RawEvent) : Except MapError RunFields := do
  let external_run_id ← extract_external_run_id raw_event
  let (status, normalization_reason) := normalize_partner_status (pyGet raw_event "status")
  let started_at ← parse_utc_timestamp (pyGet raw_event "started_at")
  let finished_at ← parse_utc_timestamp (pyGet raw_event "finished_at")
  let status_reason0 := as_optional_string (pyGet raw_event "status_reason")
  let status_reason :=
    match status_reason0 with
    | none => normalization_reason
    | some r => some r
  let duration_seconds ← as_optional_int (pyGet raw_event "duration_seconds")
  let rows_processed ← as_optional_int (pyGet raw_event "rows_processed")
  .ok
    { external_run_id := external_run_id
      status := status
      started_at := started_at
      finished_at := finished_at
      duration_seconds := duration_seconds
      rows_processed := rows_processed
      error_message := as_optional_string (pyGet raw_event "error_message")
      status_reason := status_reason
      payload := raw_event }

/-- A persisted Run row (`runs` table, fields written by `upsert_run`). -/
structure RunRow where
  pipeline_id : Nat
  external_run_id : String
  status : RunStatus
  started_at : Option Int
  finished_at : Option Int
  duration_seconds : Option Int
  rows_processed : Option Int
  error_message : Option String
  status_reason : Option String
  payload : RawEvent
  ingested_at : Int
  updated_at : Int

/-- The Run Store: the rows of the `runs` table. -/
abbrev Store := List RunRow

/-- The uniqueness key of a run row: `(pipeline_id, external_run_id)`. -/
def rowKey (r : RunRow) : Nat × String := (r.pipeline_id, r.external_run_id)

/-- The `uq_runs_pipeline_id_external_run_id` conflict test. -/
def keyMatches (pid : Nat) (erid : String) (r : RunRow) : Bool :=
  r.pipeline_id == pid && r.external_run_id == erid

/-- The row written by `upsert_run` (both the insert values and the
`on_conflict_do_update` set, which assign the same fields). -/
def mkRow (pid : Nat) (f : RunFields) (now : Int) : RunRow :=
  { pipeline_id := pid
    external_run_id := f.external_run_id
    status := f.status
    started_at := f.started_at
    finished_at := f.finished_at
    duration_seconds := f.duration_seconds
    rows_processed := f.rows_processed
    error_message := f.error_message
    status_reason := f.status_reason
    payload := f.payload
    ingested_at := now
    updated_at := now }

/-- `upsert_run` from `app/db/repository/runs.py`: atomic
insert-or-update-on-conflict keyed by `(pipeline_id, external_run_id)`. -/
def upsert_run (st : Store) (pid : Nat) (f : RunFields) (now : Int) : Store :=
  if st.any (keyMatches pid f.external_run_id) then
    st.map (fun r => if keyMatches pid f.external_run_id r then mkRow pid f now else r)
  else
    st ++ [mkRow pid f now]

/-- The table invariant: key `(pipeline_id, external_run_id)` is unique. -/
def WFStore (st : Store) : Prop := (st.map rowKey).Nodup

instance : DecidablePred WFStore := fun st =>
  inferInstanceAs (Decidable (st.map rowKey).Nodup)

/-- One raw page entry through `map_partner_run_event`: the orchestrator feeds
each element of the page's `runs` list to the mapper, which requires a dict. -/
def mapRunEvent : JVal → Except MapError RunFields
  | .jobj fields => map_partner_run_event fields
  | _ => .error "Partner run event must be a mapping"

/-- The per-page event loop of `_ingest_pipeline`: map each raw event in list
order and upsert it.  A mapping error aborts immediately, carrying the store
as mutated by the upserts that already happened. -/
def ingestPage (pid : Nat) (now : Int) : List JVal → Store → Except (MapError × Store) Store
  | [], st => .ok st
  | e :: es, st =>
    match mapRunEvent e with
    | .error msg => .error (msg, st)
    | .ok f => ingestPage pid now es (upsert_run st pid f now)

/-- Mapping a list of raw events, stopping at the first mapping error. -/
def mapEvents : List JVal → Except MapError (List RunFields)
  | [] => .ok []
  | e :: es => do
    let f ← mapRunEvent e
    let fs ← mapEvents es
    .ok (f :: fs)

/-- Upserting a list of already-mapped events in order. -/
def foldUpsert (pid : Nat) (now : Int) : List RunFields → Store → Store
  | [], st => st
  | f :: fs, st => foldUpsert pid now fs (upsert_run st pid f now)

/-- A normalized partner page as returned by the client. -/
structure Page where
  runs : List JVal
  next_cursor : Option String

/-- Errors raised by the partner client. -/
inductive ClientError where
  | requestError (msg : String)
  | responseError (msg : String)
deriving DecidableEq

/-- Errors that abort an orchestrator pass, carrying the store state at the
moment the error was raised (the caller rolls these writes back). -/
inductive PassError where
  | fetchError (e : ClientError) (st : Store)
  | mapError (msg : MapError) (st : Store)

/-- Per-pipeline result of `_ingest_pipeline`, with the recorded cursor of
every fetch call for auditing the pagination behaviour. -/
structure PipelineResult where
  store : Store
  pages : Nat
  runs : Nat
  trace : List (Option String)

/-- `_ingest_pipeline` from `app/ingestion/job.py`: cursor-driven pagination
to exhaustion.  The `while True` loop is given explicit fuel; `none` means the
fuel ran out before the partner signalled the last page. -/
def ingest_pipeline_loop (fetch : String → Option String → Except ClientError Page)
    (now : Int) (pid : Nat) (eid : String) (st : Store) (cursor : Option String) :
    Nat → Option (Except PassError PipelineResult)
  | 0 => none
  | fuel + 1 =>
    match fetch eid cursor with
    | .error e => some (.error (.fetchError e st))
    | .ok page =>
      match ingestPage pid now page.runs st with
      | .error (msg, st') => some (.error (.mapError msg st'))
      | .ok st' =>
        match page.next_cursor with
        | none => some (.ok ⟨st', 1, page.runs.length, [cursor]⟩)
        | some c =>
          if c = "" then some (.ok ⟨st', 1, page.runs.length, [cursor]⟩)
          else
            match ingest_pipeline_loop fetch now pid eid st' (some c) fuel with
            | none => none
            | some (.error e) => some (.error e)
            | some (.ok pr) =>
                some (.ok ⟨pr.store, pr.pages + 1, page.runs.length + pr.runs,
                           cursor :: pr.trace⟩)

/-- A pipeline row, as read by the eligibility provider and the orchestrator. -/
inductive PipelineType where
  | ingestion | other
deriving DecidableEq

structure PipelineRow where
  id : Nat
  external_id : Option String
  pipeline_type : PipelineType
  is_active : Bool
deriving DecidableEq

/-- `list_ingestion_pipelines_with_external_id` from
`app/db/repository/pipelines.py`: external id not NULL, type = ingestion,
active when `only_active`; the input list is in `created_at` ascending order
and the filter preserves it. -/
def list_ingestion_pipelines_with_external_id (ps : List PipelineRow)
    (only_active : Bool := true) : List PipelineRow :=
  ps.filter (fun p =>
    p.external_id.isSome && p.pipeline_type == PipelineType.ingestion &&
      (!only_active || p.is_active))

/-- Aggregate result of one orchestrator pass, with the trace of every fetch
call `(pipeline external id, cursor)` actually issued. -/
structure PassResult where
  store : Store
  pipelines_processed : Nat
  pages_processed : Nat
  runs_processed : Nat
  trace : List (String × Option String)

/-- The per-pipeline fold of `ingest_external_runs`: skip pipelines whose
`external_id` is falsy (`None` or `""`), otherwise run the pagination loop
starting at cursor `None` and accumulate the three counters. -/
def ingestPassAux (fetch : String → Option String → Except ClientError Page)
    (now : Int) (fuel : Nat) :
    List PipelineRow → Store → Option (Except PassError PassResult)
  | [], st => some (.ok ⟨st, 0, 0, 0, []⟩)
  | p :: ps, st =>
    match p.external_id with
    | none => ingestPassAux fetch now fuel ps st
    | some eid =>
      if eid = "" then ingestPassAux fetch now fuel ps st
      else
        match ingest_pipeline_loop fetch now p.id eid st none fuel with
        | none => none
        | some (.error e) => some (.error e)
        | some (.ok pr) =>
          match ingestPassAux fetch now fuel ps pr.store with
          | none => none
          | some (.error e) => some (.error e)
          | some (.ok rest) =>
            some (.ok ⟨rest.store, rest.pipelines_processed + 1,
                       pr.pages + rest.pages_processed, pr.runs + rest.runs_processed,
                       pr.trace.map (fun c => (eid, c)) ++ rest.trace⟩)

/-- `ingest_external_runs` from `app/ingestion/job.py`: eligibility query, then
the per-pipeline ingestion fold. -/
def ingest_external_runs (fetch : String → Option String → Except ClientError Page)
    (now : Int) (fuel : Nat) (ps : List PipelineRow) (st : Store) :
    Option (Except PassError PassResult) :=
  ingestPassAux fetch now fuel (list_ingestion_pipelines_with_external_id ps) st

/-- `RETRYABLE_STATUS_CODES` from `app/ingestion/client.py`. -/
def RETRYABLE_STATUS_CODES : List Nat := [429, 500, 502, 503, 504]

/-- Digit-list value with empty list read as zero. -/
def digitsValD (cs : List Char) : Nat :=
  cs.foldl (fun a c => a * 10 + (c.toNat - 48)) 0

/-- Model of Python `float(s)` on a string: optional sign, decimal digits with
an optional fractional part (exponents and inf/nan are not modelled). -/
def parsePyFloat (s : String) : Option ℚ :=
  let cs0 := pyStripChars s.toList
  let signAndRest : ℚ × List Char :=
    match cs0 with
    | '-' :: rest => (-1, rest)
    | '+' :: rest => (1, rest)
    | _ => (1, cs0)
  let sign := signAndRest.1
  let cs := signAndRest.2
  let intPart := cs.takeWhile Char.isDigit
  let rest := cs.dropWhile Char.isDigit
  match rest with
  | [] => if intPart = [] then none else some (sign * (digitsValD intPart : ℚ))
  | '.' :: frac =>
      if frac.all Char.isDigit ∧ (intPart ≠ [] ∨ frac ≠ []) then
        some (sign * ((digitsValD intPart : ℚ) + (digitsValD frac : ℚ) / (10 : ℚ) ^ frac.length))
      else none
  | _ => none

/-- `PartnerIngestionClient._retry_delay` from `app/ingestion/client.py`.
`jitterVal` is the value of `jitter_fn()` for this call; `retryAfter` is the
`Retry-After` header of the failing response when headers were passed and
truthy (`none` otherwise). -/
def retry_delay (backoff jitterVal : ℚ) (attempt : Nat) (retryAfter : Option String) : ℚ :=
  let base := backoff * 2 ^ attempt
  let delay := base + jitterVal * backoff
  match retryAfter with
  | none => delay
  | some ra =>
    match parsePyFloat ra with
    | none => delay
    | some r => max delay r

/-- The `next_cursor` coercion of `PartnerIngestionClient._normalize_page`. -/
def pageNextCursor (fields : List (String × JVal)) : Option String :=
  match List.lookup "next_cursor" fields with
  | none => none
  | some .jnull => none
  | some v => some (jvalStr v)

/-- `PartnerIngestionClient._normalize_page` from `app/ingestion/client.py`. -/
def normalize_page (raw : JVal) : Except ClientError Page :=
  match raw with
  | .jobj fields =>
    match List.lookup "runs" fields with
    | none => .ok ⟨[], pageNextCursor fields⟩
    | some .jnull => .ok ⟨[], pageNextCursor fields⟩
    | some (.jarr runs) => .ok ⟨runs, pageNextCursor fields⟩
    | some _ => .error (.responseError "Partner payload field `runs` must be a list")
  | _ => .error (.responseError "Partner payload must be a JSON object")

/-- The outcome of one HTTP attempt inside `_request_page`: a
connection/timeout failure, another request exception, or a response with a
status code, an optional `Retry-After` header and a JSON body. -/
inductive AttemptOutcome where
  | netFail
  | otherRequestFail
  | resp (status : Nat) (retryAfter : Option String) (body : JVal)

/-- Observable result of `_request_page`: the returned page or raised error,
the recorded backoff sleeps, and the number of HTTP attempts issued. -/
structure RequestResult where
  result : Except ClientError Page
  sleeps : List ℚ
  attempts : Nat

/-- The attempt loop of `PartnerIngestionClient._request_page`, one step per
iteration of `for attempt in range(max_retries + 1)`.  `fuel` is the number of
loop iterations left (`max_retries + 1 - attempt`); the fuel-exhausted case is
the `raise` after the loop. -/
def requestFrom (respond : Nat → AttemptOutcome) (jitters : Nat → ℚ) (backoff : ℚ)
    (maxRetries : Nat) : Nat → Nat → RequestResult
  | 0, attempt => ⟨.error (.requestError "Partner request failed"), [], attempt⟩
  | fuel + 1, attempt =>
    match respond attempt with
    | .netFail =>
      if maxRetries ≤ attempt then
        ⟨.error (.requestError "Partner request failed after retry budget was exhausted"),
         [], attempt + 1⟩
      else
        let d := retry_delay backoff (jitters attempt) attempt none
        let r := requestFrom respond jitters backoff maxRetries fuel (attempt + 1)
        ⟨r.result, d :: r.sleeps, r.attempts⟩
    | .otherRequestFail =>
        ⟨.error (.requestError "Partner request failed"), [], attempt + 1⟩
    | .resp status retryAfter body =>
      if RETRYABLE_STATUS_CODES.contains status then
        if maxRetries ≤ attempt then
          ⟨.error (.requestError
              ("Partner request failed with retryable status " ++ toString status)),
           [], attempt + 1⟩
        else
          let d := retry_delay backoff (jitters attempt) attempt retryAfter
          let r := requestFrom respond jitters backoff maxRetries fuel (attempt + 1)
          ⟨r.result, d :: r.sleeps, r.attempts⟩
      else if 400 ≤ status ∧ status < 600 then
        ⟨.error (.requestError ("Partner request failed with status " ++ toString status)),
         [], attempt + 1⟩
      else
        ⟨normalize_page body, [], attempt + 1⟩

/-- `PartnerIngestionClient._request_page` from `app/ingestion/client.py`. -/
def request_page (respond : Nat → AttemptOutcome) (jitters : Nat → ℚ)
    (maxRetries : Nat) (backoff : ℚ) : RequestResult :=
  requestFrom respond jitters backoff maxRetries (maxRetries + 1) 0

/-- First page of the three-page pagination example (§8 of the spec). -/
def examplePage1 : Page :=
  ⟨[.jobj [("id", .jstr "r1"), ("status", .jstr "success")]], some "cursor-2"⟩

/-- Second page of the three-page pagination example. -/
def examplePage2 : Page :=
  ⟨[.jobj [("id", .jstr "r2"), ("status", .jstr "running")]], some "cursor-3"⟩

/-- Third and last page of the three-page pagination example. -/
def examplePage3 : Page :=
  ⟨[.jobj [("id", .jstr "r3"), ("status", .jstr "failed")]], none⟩

/-- A partner client serving the three chained pages
`null → "cursor-2" → "cursor-3" → null`. -/
def exampleFetch : String → Option String → Except ClientError Page := fun _ cursor =>
  match cursor with
  | none => .ok examplePage1
  | some "cursor-2" => .ok examplePage2
  | some "cursor-3" => .ok examplePage3
  | some _ => .error (.requestError "unexpected cursor")

/-- A partner client whose single page is empty and final. -/
def emptyFetch : String → Option String → Except ClientError Page := fun _ _ =>
  .ok ⟨[], none⟩

/-- The single eligible pipeline used by the pagination example. -/
def examplePipeline : PipelineRow := ⟨1, some "ext-1", .ingestion, true⟩

/-- An eligible-by-the-filter pipeline whose external id is the empty string. -/
def emptyExtPipeline : PipelineRow := ⟨2, some "", .ingestion, true⟩

/-- A mapped `running` event for the status-progression example. -/
def fRunning : RunFields :=
  { external_run_id := "run-1", status := .running
    started_at := some 100, finished_at := none
    duration_seconds := none, rows_processed := none
    error_message := none, status_reason := none
    payload := [("id", .jstr "run-1"), ("status", .jstr "running")] }

/-- A mapped `success` event for the same external run id, with finish
time and duration. -/
def fSuccess : RunFields :=
  { external_run_id := "run-1", status := .success
    started_at := some 100, finished_at := some 200
    duration_seconds := some 100, rows_processed := some 10
    error_message := none, status_reason := none
    payload := [("id", .jstr "run-1"), ("status", .jstr "success")] }

/-! Proof-support definitions about the Run Store. -/

/-- The row-level effect of one conflicting upsert: replace the row when the
key matches, keep it otherwise. -/
def applyEvent (pid : Nat) (now : Int) (f : RunFields) (r : RunRow) : RunRow :=
  if keyMatches pid f.external_run_id r then mkRow pid f now else r

/-- The last mapped event in `fs` whose run key is `k`. -/
def lastFor (pid : Nat) (fs : List RunFields) (k : Nat × String) : Option RunFields :=
  (fs.filter (fun g => (pid, g.external_run_id) == k)).getLast?

/-- Replace a row by the last event of `fs` targeting its key, if any. -/
def applyLast (pid : Nat) (now : Int) (fs : List RunFields) (r : RunRow) : RunRow :=
  match lastFor pid fs (rowKey r) with
  | some g => mkRow pid g now
  | none => r

/-! ### Helper lemmas about the mapper -/

/-- Characterize a successful `map_partner_run_event`: every field of the
produced record in terms of the helper functions. -/
theorem map_partner_run_event_ok (ev : RawEvent) (f : RunFields)
    (h : map_partner_run_event ev = .ok f) :
    (∃ erid, extract_external_run_id ev = .ok erid ∧ f.external_run_id = erid)
    ∧ f.status = (normalize_partner_status (pyGet ev "status")).1
    ∧ parse_utc_timestamp (pyGet ev "started_at") = .ok f.started_at
    ∧ parse_utc_timestamp (pyGet ev "finished_at") = .ok f.finished_at
    ∧ f.status_reason =
        (match as_optional_string (pyGet ev "status_reason") with
         | none => (normalize_partner_status (pyGet ev "status")).2
         | some r => some r)
    ∧ as_optional_int (pyGet ev "duration_seconds") = .ok f.duration_seconds
    ∧ as_optional_int (pyGet ev "rows_processed") = .ok f.rows_processed
    ∧ f.error_message = as_optional_string (pyGet ev "error_message")
    ∧ f.payload = ev := by
  simp only [map_partner_run_event, bind, Except.bind] at h
  cases hid : extract_external_run_id ev with
  | error e => rw [hid] at h; exact absurd h (by simp)
  | ok erid =>
    rw [hid] at h
    cases hst : parse_utc_timestamp (pyGet ev "started_at") with
    | error e => rw [hst] at h; exact absurd h (by simp)
    | ok started =>
      rw [hst] at h
      cases hfi : parse_utc_timestamp (pyGet ev "finished_at") with
      | error e => rw [hfi] at h; exact absurd h (by simp)
      | ok finished =>
        rw [hfi] at h
        cases hdu : as_optional_int (pyGet ev "duration_seconds") with
        | error e => rw [hdu] at h; exact absurd h (by simp)
        | ok dur =>
          rw [hdu] at h
          cases hro : as_optional_int (pyGet ev "rows_processed") with
          | error e => rw [hro] at h; exact absurd h (by simp)
          | ok rows =>
            rw [hro] at h
            simp only [Except.ok.injEq] at h
            subst h
            exact ⟨⟨erid, rfl, rfl⟩, rfl, rfl, rfl, rfl, rfl, rfl, rfl, rfl⟩

/-! ### C3: status normalization -/

/-- C3: the mapper trims and lower-cases the raw status and looks it up in the
fixed synonym vocabulary onto the five canonical statuses; every unknown
non-null value yields `failed` with the documented generated reason; a
missing/null status yields `failed` with the documented default reason; and a
non-empty explicit `status_reason` on the raw event takes precedence over the
generated reason (the generated reason is used only when no explicit one is
supplied). -/
theorem status_normalization_spec :
    (normalize_partner_status none =
        (.failed, some "Missing source status; defaulted to `failed`"))
    ∧ (∀ v c, STATUS_MAP (pyLower (pyStrip (jvalStr v))) = some c →
        normalize_partner_status (some v) = (c, none))
    ∧ (∀ v, STATUS_MAP (pyLower (pyStrip (jvalStr v))) = none →
        normalize_partner_status (some v) =
          (.failed,
           some ("Unknown source status `" ++ jvalStr v ++ "` normalized to `failed`")))
    ∧ (STATUS_MAP "running" = some .running ∧ STATUS_MAP "in_progress" = some .running
      ∧ STATUS_MAP "queued" = some .running ∧ STATUS_MAP "pending" = some .running
      ∧ STATUS_MAP "success" = some .success ∧ STATUS_MAP "succeeded" = some .success
      ∧ STATUS_MAP "completed" = some .success ∧ STATUS_MAP "failed" = some .failed
      ∧ STATUS_MAP "failure" = some .failed ∧ STATUS_MAP "error" = some .failed
      ∧ STATUS_MAP "errored" = some .failed ∧ STATUS_MAP "canceled" = some .canceled
      ∧ STATUS_MAP "cancelled" = some .canceled ∧ STATUS_MAP "aborted" = some .canceled
      ∧ STATUS_MAP "skipped" = some .skipped
      ∧ STATUS_MAP "paused" = none)
    ∧ (∀ ev f v, pyGet ev "status_reason" = some v → v ≠ .jstr "" →
        map_partner_run_event ev = .ok f → f.status_reason = some (jvalStr v))
    ∧ (∀ ev f, pyGet ev "status_reason" = none → map_partner_run_event ev = .ok f →
        f.status_reason = (normalize_partner_status (pyGet ev "status")).2) := by
  refine ⟨rfl, ?_, ?_, ?_, ?_, ?_⟩
  · intro v c h
    simp [normalize_partner_status, h]
  · intro v h
    simp [normalize_partner_status, h]
  · exact ⟨rfl, rfl, rfl, rfl, rfl, rfl, rfl, rfl, rfl, rfl, rfl, rfl, rfl, rfl, rfl, rfl⟩
  · intro ev f v hget hne hmap
    have hsr := (map_partner_run_event_ok ev f hmap).2.2.2.2.1
    rw [hget] at hsr
    have hval : as_optional_string (some v) = some (jvalStr v) := by
      have hfalse : isNoneOrEmpty (some v) = false := by
        cases v with
        | jstr s =>
            simp only [isNoneOrEmpty, beq_iff_eq]
            exact decide_eq_false (fun hs => hne (by rw [hs]))
        | jnull => rfl
        | jbool b => rfl
        | jnum n => rfl
        | jarr xs => rfl
        | jobj fs => rfl
      simp [as_optional_string, hfalse]
    rw [hval] at hsr
    exact hsr
  · intro ev f hget hmap
    have hsr := (map_partner_run_event_ok ev f hmap).2.2.2.2.1
    rw [hget] at hsr
    simpa [as_optional_string, isNoneOrEmpty] using hsr

/-- Witness for C3 at concrete inputs: the synonym "Succeeded " normalizes to
`success`; the unknown status "paused" and a missing status default to
`failed` with the documented reasons; an explicit non-empty status_reason
wins over the generated one. -/
theorem status_normalization_spec_witness :
    normalize_partner_status (some (.jstr " Succeeded ")) = (.success, none)
    ∧ normalize_partner_status (some (.jstr "paused")) =
        (.failed, some "Unknown source status `paused` normalized to `failed`")
    ∧ map_partner_run_event
        [("id", .jstr "r9"), ("status", .jstr "paused"), ("status_reason", .jstr "ops note")]
        = .ok { external_run_id := "r9", status := .failed, started_at := none,
                finished_at := none, duration_seconds := none, rows_processed := none,
                error_message := none, status_reason := some "ops note",
                payload := [("id", .jstr "r9"), ("status", .jstr "paused"),
                            ("status_reason", .jstr "ops note")] }
    ∧ (RunFields.status_reason
        { external_run_id := "r9", status := .failed, started_at := none,
          finished_at := none, duration_seconds := none, rows_processed := none,
          error_message := none, status_reason := some "ops note",
          payload := [("id", .jstr "r9"), ("status", .jstr "paused"),
                      ("status_reason", .jstr "ops note")] }) =
        some (jvalStr (.jstr "ops note")) := by
  refine ⟨?_, ?_, rfl, ?_⟩
  · exact status_normalization_spec.2.1 (.jstr " Succeeded ") .success (by rfl)
  · exact status_normalization_spec.2.2.1 (.jstr "paused") (by rfl)
  · exact status_normalization_spec.2.2.2.2.1
      [("id", .jstr "r9"), ("status", .jstr "paused"), ("status_reason", .jstr "ops note")]
      _ (.jstr "ops note") rfl (by simp) rfl

/-! ### C6: backoff computation -/

/-- C6: the computed wait for a retry at attempt `n` with backoff `b` and
jitter value `j` is `b * 2 ^ n + j * b`; a `Retry-After` header that parses as
a number forces the wait up to at least that value (the maximum of the two),
and a malformed `Retry-After` is ignored. -/
theorem retry_delay_spec :
    (∀ (b j : ℚ) (n : Nat), retry_delay b j n none = b * 2 ^ n + j * b)
    ∧ (∀ (b j : ℚ) (n : Nat) (ra : String), parsePyFloat ra = none →
        retry_delay b j n (some ra) = b * 2 ^ n + j * b)
    ∧ (∀ (b j : ℚ) (n : Nat) (ra : String) (r : ℚ), parsePyFloat ra = some r →
        retry_delay b j n (some ra) = max (b * 2 ^ n + j * b) r)
    ∧ (parsePyFloat "2" = some 2 ∧ ∀ (b j : ℚ) (n : Nat),
        2 ≤ retry_delay b j n (some "2")) := by
  have h2 : parsePyFloat "2" = some 2 := by
    rw [show parsePyFloat "2" = some (1 * ((2 : Nat) : ℚ)) from rfl]
    norm_num
  refine ⟨fun b j n => rfl, ?_, ?_, h2, ?_⟩
  · intro b j n ra h
    simp [retry_delay, h]
  · intro b j n ra r h
    simp [retry_delay, h]
  · intro b j n
    simp only [retry_delay, h2]
    exact le_max_right _ _

/-- Witness for C6 at concrete inputs: attempt 1 with backoff 1 and jitter 0,
a malformed header, a parsed header, and `Retry-After: 2` dominating a
smaller computed backoff. -/
theorem retry_delay_spec_witness :
    retry_delay 1 0 1 none = 1 * 2 ^ 1 + 0 * 1
    ∧ retry_delay 1 0 0 (some "not-a-number") = 1 * 2 ^ 0 + 0 * 1
    ∧ retry_delay (1/2) 0 0 (some "2") = max ((1/2) * 2 ^ 0 + 0 * (1/2)) 2
    ∧ 2 ≤ retry_delay (1/2) 0 0 (some "2") :=
  ⟨retry_delay_spec.1 1 0 1,
   retry_delay_spec.2.1 1 0 0 "not-a-number" rfl,
   retry_delay_spec.2.2.1 (1/2) 0 0 "2" 2 retry_delay_spec.2.2.2.1,
   retry_delay_spec.2.2.2.2 (1/2) 0 0⟩

/-! ### C5: retry policy -/

/-- The attempt counter of the request loop never exceeds the remaining
iteration budget. -/
theorem requestFrom_attempts_le (respond : Nat → AttemptOutcome) (jitters : Nat → ℚ)
    (b : ℚ) (mr : Nat) :
    ∀ fuel attempt, (requestFrom respond jitters b mr fuel attempt).attempts ≤ attempt + fuel := by
  intro fuel
  induction fuel with
  | zero => intro attempt; simp [requestFrom]
  | succ n ih =>
    intro attempt
    simp only [requestFrom]
    cases respond attempt with
    | netFail =>
      by_cases h : mr ≤ attempt
      · simp only [if_pos h]; omega
      · simp only [if_neg h]
        have := ih (attempt + 1)
        omega
    | otherRequestFail => simp
    | resp status ra body =>
      by_cases hr : RETRYABLE_STATUS_CODES.contains status = true
      · simp only [hr, if_pos]
        by_cases h : mr ≤ attempt
        · simp only [if_pos h]; omega
        · simp only [if_neg h]
          have := ih (attempt + 1)
          omega
      · simp only [Bool.not_eq_true] at hr
        simp only [hr, Bool.false_eq_true, if_neg, not_false_iff]
        by_cases h4 : 400 ≤ status ∧ status < 600
        · simp only [if_pos h4]; omega
        · simp only [if_neg h4]; omega

/-- Non-429 4xx statuses are not in the retryable set. -/
theorem non429_4xx_not_retryable (status : Nat) (h4 : 400 ≤ status) (h5 : status < 500)
    (h9 : status ≠ 429) : RETRYABLE_STATUS_CODES.contains status = false := by
  simp only [RETRYABLE_STATUS_CODES, List.contains_cons, List.contains_nil,
    Bool.or_eq_false_iff, beq_eq_false_iff_ne, ne_eq, and_true]
  refine ⟨?_, ?_, ?_, ?_, ?_⟩ <;> omega

/-- C5: the client retries only on connection/timeout failure or a status in
{429, 500, 502, 503, 504} (any other first response ends the call at exactly
one attempt with no sleep); it performs at most `max_retries` additional
attempts; a 4xx status other than 429 fails immediately with a request error;
and with `max_retries = 2` three consecutive connection errors produce
exactly 3 attempts, sleeps `[backoff * 1, backoff * 2]` at zero jitter, and a
final request error. -/
theorem request_page_retry_spec :
    (∀ respond (jitters : Nat → ℚ) (b : ℚ) (mr status : Nat) ra body,
        respond 0 = .resp status ra body → RETRYABLE_STATUS_CODES.contains status = false →
        (request_page respond jitters mr b).attempts = 1
          ∧ (request_page respond jitters mr b).sleeps = [])
    ∧ (∀ respond (jitters : Nat → ℚ) (b : ℚ) (mr : Nat),
        (request_page respond jitters mr b).attempts ≤ mr + 1)
    ∧ (∀ respond (jitters : Nat → ℚ) (b : ℚ) (mr status : Nat) ra body,
        respond 0 = .resp status ra body → 400 ≤ status → status < 500 → status ≠ 429 →
        request_page respond jitters mr b =
          ⟨.error (.requestError ("Partner request failed with status " ++ toString status)),
           [], 1⟩)
    ∧ (∀ respond (b : ℚ), (∀ n, respond n = AttemptOutcome.netFail) →
        (request_page respond (fun _ => 0) 2 b).result =
            .error (.requestError "Partner request failed after retry budget was exhausted")
          ∧ (request_page respond (fun _ => 0) 2 b).sleeps = [b * 1, b * 2]
          ∧ (request_page respond (fun _ => 0) 2 b).attempts = 3) := by
  refine ⟨?_, ?_, ?_, ?_⟩
  · intro respond jitters b mr status ra body h0 hnr
    simp only [request_page, requestFrom, h0, hnr, Bool.false_eq_true, if_neg,
      not_false_iff]
    by_cases h4 : 400 ≤ status ∧ status < 600
    · simp [if_pos h4]
    · simp [if_neg h4]
  · intro respond jitters b mr
    have := requestFrom_attempts_le respond jitters b mr (mr + 1) 0
    simpa [request_page] using this
  · intro respond jitters b mr status ra body h0 h4 h5 h9
    have hnr := non429_4xx_not_retryable status h4 h5 h9
    simp only [request_page, requestFrom, h0, hnr, Bool.false_eq_true, if_neg,
      not_false_iff]
    rw [if_pos ⟨h4, by omega⟩]
  · intro respond b h
    simp only [request_page, requestFrom, h 0, h 1, h 2]
    norm_num [retry_delay]

/-- Witness for C5 at concrete inputs: a 404 fails immediately after one
attempt with no sleeps; three connection errors under `max_retries = 2` and
`backoff = 1` give sleeps `[1, 2]`, three attempts and a request error; and
the attempt bound instantiated at that client. -/
theorem request_page_retry_spec_witness :
    ((request_page (fun _ => .resp 404 none .jnull) (fun _ => 0) 3 1).attempts = 1
      ∧ (request_page (fun _ => .resp 404 none .jnull) (fun _ => 0) 3 1).sleeps = [])
    ∧ request_page (fun _ => .resp 404 none .jnull) (fun _ => 0) 3 1 =
        ⟨.error (.requestError ("Partner request failed with status " ++ toString 404)), [], 1⟩
    ∧ ((request_page (fun _ => AttemptOutcome.netFail) (fun _ => 0) 2 1).result =
          .error (.requestError "Partner request failed after retry budget was exhausted")
        ∧ (request_page (fun _ => AttemptOutcome.netFail) (fun _ => 0) 2 1).sleeps = [1 * 1, 1 * 2]
        ∧ (request_page (fun _ => AttemptOutcome.netFail) (fun _ => 0) 2 1).attempts = 3)
    ∧ (request_page (fun _ => AttemptOutcome.netFail) (fun _ => 0) 2 1).attempts ≤ 2 + 1 :=
  ⟨request_page_retry_spec.1 _ _ 1 3 404 none .jnull rfl (by rfl),
   request_page_retry_spec.2.2.1 _ _ 1 3 404 none .jnull rfl (by omega) (by omega) (by omega),
   request_page_retry_spec.2.2.2 _ 1 (fun _ => rfl),
   request_page_retry_spec.2.1 _ _ 1 2⟩

/-! ### C7: page shape validation -/

/-- C7: a non-object body fails with a response error; an absent or null
`runs` field normalizes to an empty list; a non-list `runs` (e.g. a string)
fails with a response error — and a client error surfaces from the
orchestrator's fetch before any event is mapped or upserted (the store is
untouched); `next_cursor` is null when absent/null and the string coercion of
the raw value otherwise. -/
theorem normalize_page_spec :
    (∀ v : JVal, (∀ fields, v ≠ .jobj fields) →
        normalize_page v = .error (.responseError "Partner payload must be a JSON object"))
    ∧ (∀ fields, List.lookup "runs" fields = none →
        normalize_page (.jobj fields) = .ok ⟨[], pageNextCursor fields⟩)
    ∧ (∀ fields, List.lookup "runs" fields = some .jnull →
        normalize_page (.jobj fields) = .ok ⟨[], pageNextCursor fields⟩)
    ∧ (∀ fields s, List.lookup "runs" fields = some (.jstr s) →
        normalize_page (.jobj fields) =
          .error (.responseError "Partner payload field `runs` must be a list"))
    ∧ (∀ fetch now pid eid st cursor (fuel : Nat) (e : ClientError),
        fetch eid cursor = .error e →
        ingest_pipeline_loop fetch now pid eid st cursor (fuel + 1) =
          some (.error (.fetchError e st)))
    ∧ (∀ fields, List.lookup "next_cursor" fields = none → pageNextCursor fields = none)
    ∧ (∀ fields, List.lookup "next_cursor" fields = some .jnull →
        pageNextCursor fields = none)
    ∧ (∀ fields v, List.lookup "next_cursor" fields = some v → v ≠ .jnull →
        pageNextCursor fields = some (jvalStr v)) := by
  refine ⟨?_, ?_, ?_, ?_, ?_, ?_, ?_, ?_⟩
  · intro v hne
    cases v with
    | jobj fields => exact absurd rfl (hne fields)
    | jnull => rfl
    | jbool b => rfl
    | jnum n => rfl
    | jstr s => rfl
    | jarr xs => rfl
  · intro fields h
    simp only [normalize_page, h]
  · intro fields h
    simp only [normalize_page, h]
  · intro fields s h
    simp only [normalize_page, h]
  · intro fetch now pid eid st cursor fuel e h
    simp only [ingest_pipeline_loop, h]
  · intro fields h
    simp only [pageNextCursor, h]
  · intro fields h
    simp only [pageNextCursor, h]
  · intro fields v h hv
    simp only [pageNextCursor, h]

/-- Witness for C7 at concrete inputs: a string body, a page without `runs`,
a null `runs`, a string `runs`, a failing fetch left the store untouched, and
the three `next_cursor` shapes. -/
theorem normalize_page_spec_witness :
    normalize_page (.jstr "nope") =
        .error (.responseError "Partner payload must be a JSON object")
    ∧ normalize_page (.jobj [("next_cursor", .jstr "c")]) =
        .ok ⟨[], pageNextCursor [("next_cursor", .jstr "c")]⟩
    ∧ normalize_page (.jobj [("runs", .jnull)]) = .ok ⟨[], pageNextCursor [("runs", .jnull)]⟩
    ∧ normalize_page (.jobj [("runs", .jstr "not-a-list")]) =
        .error (.responseError "Partner payload field `runs` must be a list")
    ∧ ingest_pipeline_loop (fun _ _ => .error (.responseError "bad")) 0 1 "e" [] none 5 =
        some (.error (.fetchError (.responseError "bad") []))
    ∧ pageNextCursor [("runs", .jnull)] = none
    ∧ pageNextCursor [("next_cursor", .jnull)] = none
    ∧ pageNextCursor [("next_cursor", .jnum 7)] = some (jvalStr (.jnum 7)) :=
  ⟨normalize_page_spec.1 (.jstr "nope") (fun _ h => JVal.noConfusion h),
   normalize_page_spec.2.1 [("next_cursor", .jstr "c")] rfl,
   normalize_page_spec.2.2.1 [("runs", .jnull)] rfl,
   normalize_page_spec.2.2.2.1 [("runs", .jstr "not-a-list")] "not-a-list" rfl,
   normalize_page_spec.2.2.2.2.1 (fun _ _ => .error (.responseError "bad")) 0 1 "e" [] none 4
     (.responseError "bad") rfl,
   normalize_page_spec.2.2.2.2.2.1 [("runs", .jnull)] rfl,
   normalize_page_spec.2.2.2.2.2.2.1 [("next_cursor", .jnull)] rfl,
   normalize_page_spec.2.2.2.2.2.2.2 [("next_cursor", .jnum 7)] (.jnum 7) rfl
     (fun h => JVal.noConfusion h)⟩

/-! ### C8: run identity and abort-on-mapping-error -/

/-- A value that is not the empty string fails the `in (None, "")` test. -/
theorem isNoneOrEmpty_some_false (v : JVal) (h : v ≠ .jstr "") :
    isNoneOrEmpty (some v) = false := by
  cases v with
  | jstr s =>
      simp only [isNoneOrEmpty, beq_iff_eq]
      exact decide_eq_false (fun hs => h (by rw [hs]))
  | jnull => rfl
  | jbool b => rfl
  | jnum n => rfl
  | jarr xs => rfl
  | jobj fs => rfl

/-- C8: the mapper takes `external_run_id` as run identity when present and
non-empty, falls back to `id`, and errors when both are missing/empty; a
mapping error propagates uncaught: the first failing event aborts the page
with the store reflecting only the events strictly before it, and the
orchestrator loop surfaces it unchanged. -/
theorem missing_identity_spec :
    (∀ ev v, pyGet ev "external_run_id" = some v → v ≠ .jstr "" →
        extract_external_run_id ev = .ok (jvalStr v))
    ∧ (∀ ev v, isNoneOrEmpty (pyGet ev "external_run_id") = true →
        pyGet ev "id" = some v → v ≠ .jstr "" →
        extract_external_run_id ev = .ok (jvalStr v))
    ∧ (∀ ev, isNoneOrEmpty (pyGet ev "external_run_id") = true →
        isNoneOrEmpty (pyGet ev "id") = true →
        extract_external_run_id ev =
          .error "Missing required run identity field `external_run_id` or `id`")
    ∧ (∀ pid now es1 bad es2 st fs msg, mapEvents es1 = .ok fs →
        mapRunEvent bad = .error msg →
        ingestPage pid now (es1 ++ bad :: es2) st =
          .error (msg, foldUpsert pid now fs st))
    ∧ (∀ fetch now pid eid st cursor (fuel : Nat) page msg st',
        fetch eid cursor = .ok page →
        ingestPage pid now page.runs st = .error (msg, st') →
        ingest_pipeline_loop fetch now pid eid st cursor (fuel + 1) =
          some (.error (.mapError msg st'))) := by
  refine ⟨?_, ?_, ?_, ?_, ?_⟩
  · intro ev v hget hne
    have hh := isNoneOrEmpty_some_false v hne
    simp only [extract_external_run_id, hget, hh, Bool.false_eq_true, if_neg,
      not_false_iff, Option.getD_some]
  · intro ev v hempty hget hne
    have hh := isNoneOrEmpty_some_false v hne
    simp only [extract_external_run_id, hempty, if_pos, hget, hh, Bool.false_eq_true,
      if_neg, not_false_iff, Option.getD_some]
  · intro ev h1 h2
    simp only [extract_external_run_id, h1, if_pos, h2]
  · intro pid now es1
    induction es1 with
    | nil =>
      intro bad es2 st fs msg hmapped hbad
      simp only [mapEvents] at hmapped
      cases hmapped
      simp only [List.nil_append, ingestPage, hbad, foldUpsert]
    | cons e tl ih =>
      intro bad es2 st fs msg hmapped hbad
      simp only [mapEvents, bind, Except.bind] at hmapped
      cases he : mapRunEvent e with
      | error msg' => rw [he] at hmapped; exact absurd hmapped (by simp)
      | ok f =>
        rw [he] at hmapped
        cases htl : mapEvents tl with
        | error msg' => rw [htl] at hmapped; exact absurd hmapped (by simp)
        | ok fs' =>
          rw [htl] at hmapped
          simp only [Except.ok.injEq] at hmapped
          subst hmapped
          simp only [List.cons_append, ingestPage, he, foldUpsert]
          exact ih bad es2 (upsert_run st pid f now) fs' msg htl hbad
  · intro fetch now pid eid st cursor fuel page msg st' hfetch hpage
    simp only [ingest_pipeline_loop, hfetch, hpage]

/-- Witness for C8 at concrete inputs: identity from `external_run_id`, the
fallback to `id`, the error when both are blank, a page whose second event
lacks identity aborting with only the first event upserted, and the
orchestrator surfacing that abort. -/
theorem missing_identity_spec_witness :
    extract_external_run_id [("external_run_id", .jstr "e7"), ("id", .jstr "i1")] =
        .ok (jvalStr (.jstr "e7"))
    ∧ extract_external_run_id [("external_run_id", .jstr ""), ("id", .jstr "i1")] =
        .ok (jvalStr (.jstr "i1"))
    ∧ extract_external_run_id [("external_run_id", .jstr ""), ("note", .jstr "x")] =
        .error "Missing required run identity field `external_run_id` or `id`"
    ∧ ingestPage 1 0
          [JVal.jobj [("id", .jstr "r1"), ("status", .jstr "success")],
           JVal.jobj [("note", .jstr "no identity")],
           JVal.jobj [("id", .jstr "r2"), ("status", .jstr "success")]] [] =
          .error ("Missing required run identity field `external_run_id` or `id`",
            foldUpsert 1 0
              [{ external_run_id := "r1", status := .success, started_at := none,
                 finished_at := none, duration_seconds := none, rows_processed := none,
                 error_message := none, status_reason := none,
                 payload := [("id", .jstr "r1"), ("status", .jstr "success")] }] []) := by
  refine ⟨?_, ?_, ?_, ?_⟩
  · exact missing_identity_spec.1 _ (.jstr "e7") rfl (by simp)
  · exact missing_identity_spec.2.1 _ (.jstr "i1") rfl rfl (by simp)
  · exact missing_identity_spec.2.2.1 _ rfl rfl
  · exact missing_identity_spec.2.2.2.1 1 0
      [JVal.jobj [("id", .jstr "r1"), ("status", .jstr "success")]]
      (JVal.jobj [("note", .jstr "no identity")])
      [JVal.jobj [("id", .jstr "r2"), ("status", .jstr "success")]] []
      [{ external_run_id := "r1", status := .success, started_at := none,
         finished_at := none, duration_seconds := none, rows_processed := none,
         error_message := none, status_reason := none,
         payload := [("id", .jstr "r1"), ("status", .jstr "success")] }]
      "Missing required run identity field `external_run_id` or `id`" rfl rfl

/-! ### C9: timestamp parsing -/

/-- A nonempty string reaches the string branch of `_parse_utc_timestamp`. -/
theorem parse_utc_timestamp_str (s : String) (h : s ≠ "") :
    parse_utc_timestamp (some (.jstr s)) = parseUtcTimestampChars s s.toList := by
  have hb : (s == "") = false := beq_eq_false_iff_ne.mpr h
  simp [parse_utc_timestamp, isNoneOrEmpty, hb]

/-- Stripping does not eat into a non-whitespace-delimited suffix. -/
theorem pyStripChars_append (l z : List Char) (hz : z ≠ [])
    (h1 : isPySpace (z.head hz) = false) (h2 : isPySpace (z.getLast hz) = false) :
    pyStripChars (l ++ z) = l.dropWhile isPySpace ++ z := by
  have hdz : z.dropWhile isPySpace = z := by
    cases z with
    | nil => contradiction
    | cons a t =>
      simp only [List.head_cons] at h1
      simp [List.dropWhile_cons, h1]
  have e1 : (l ++ z).dropWhile isPySpace = l.dropWhile isPySpace ++ z := by
    rw [List.dropWhile_append]
    split
    · next hcond =>
        rw [List.isEmpty_iff] at hcond
        rw [hcond, hdz, List.nil_append]
    · rfl
  unfold pyStripChars
  rw [e1, List.reverse_append]
  have e2 : z.reverse.dropWhile isPySpace = z.reverse ∧ z.reverse ≠ [] := by
    cases hzr : z.reverse with
    | nil => exact absurd (by simpa using congrArg List.reverse hzr) hz
    | cons a t =>
      have ha : a = z.getLast hz := by
        rw [List.getLast_eq_head_reverse]
        simp [hzr]
      constructor
      · simp [List.dropWhile_cons, ha, h2]
      · simp
  have e3 : (z.reverse ++ (l.dropWhile isPySpace).reverse).dropWhile isPySpace =
      z.reverse ++ (l.dropWhile isPySpace).reverse := by
    rw [List.dropWhile_append]
    split
    · next hcond =>
        rw [e2.1] at hcond
        exact absurd (List.isEmpty_iff.mp hcond) e2.2
    · rw [e2.1]
  rw [e3, List.reverse_append, List.reverse_reverse, List.reverse_reverse]

/-- After stripping, rewriting a trailing `Z` produces the same character list
as having written `+00:00` in its place. -/
theorem zTo0000_strip_equiv (l : List Char) :
    zTo0000 (pyStripChars (l ++ ['Z'])) = zTo0000 (pyStripChars (l ++ "+00:00".toList)) := by
  rw [pyStripChars_append l ['Z'] (by simp) (by rfl) (by rfl)]
  rw [pyStripChars_append l "+00:00".toList (by decide) (by rfl) (by rfl)]
  have hzl : zTo0000 (l.dropWhile isPySpace ++ ['Z']) =
      l.dropWhile isPySpace ++ "+00:00".toList := by
    unfold zTo0000
    rw [List.getLast?_concat, if_pos rfl, List.dropLast_concat]
  have hzr : zTo0000 (l.dropWhile isPySpace ++ "+00:00".toList) =
      l.dropWhile isPySpace ++ "+00:00".toList := by
    unfold zTo0000
    have hassoc : l.dropWhile isPySpace ++ "+00:00".toList =
        (l.dropWhile isPySpace ++ ['+', '0', '0', ':', '0']) ++ ['0'] := by
      rw [List.append_assoc]
      rfl
    rw [hassoc, List.getLast?_concat]
    rw [if_neg (by simp)]
  rw [hzl, hzr]

/-- The parse result of the timestamp body, forgetting the error message. -/
theorem parseUtcTimestampChars_toOption (o : String) (cs : List Char) :
    (parseUtcTimestampChars o cs).toOption =
      (fromIsoChars (zTo0000 (pyStripChars cs))).map (fun dt => some (dtUtcSeconds dt)) := by
  cases h : fromIsoChars (zTo0000 (pyStripChars cs)) <;>
    simp [parseUtcTimestampChars, h, Except.toOption]

/-- C9: null/empty timestamp values map to no timestamp; non-string values
fail with a mapping error; a trailing `Z` is read as the UTC offset `+00:00`;
a parseable naive value is taken at offset zero (UTC) and an aware value is
converted to UTC by subtracting its offset, so every returned timestamp is a
UTC instant; an unparseable string fails with a mapping error. -/
theorem parse_utc_timestamp_spec :
    (parse_utc_timestamp none = .ok none
      ∧ parse_utc_timestamp (some (.jstr "")) = .ok none)
    ∧ (∀ n : Int, parse_utc_timestamp (some (.jnum n)) =
        .error "Timestamp fields must be ISO-8601 strings")
    ∧ (∀ s : String, (parse_utc_timestamp (some (.jstr (s ++ "Z")))).toOption =
        (parse_utc_timestamp (some (.jstr (s ++ "+00:00")))).toOption)
    ∧ (∀ dt : PyDateTime, dt.tzOffsetMinutes = none →
        dtUtcSeconds dt = dtUtcSeconds { dt with tzOffsetMinutes := some 0 })
    ∧ (∀ (dt : PyDateTime) (off : Int), dt.tzOffsetMinutes = some off →
        dtUtcSeconds dt = dtUtcSeconds { dt with tzOffsetMinutes := some 0 } - 60 * off)
    ∧ (∀ (s : String) (dt : PyDateTime), s ≠ "" →
        fromIsoChars (zTo0000 (pyStripChars s.toList)) = some dt →
        parse_utc_timestamp (some (.jstr s)) = .ok (some (dtUtcSeconds dt)))
    ∧ (∀ s : String, s ≠ "" →
        fromIsoChars (zTo0000 (pyStripChars s.toList)) = none →
        parse_utc_timestamp (some (.jstr s)) =
          .error ("Invalid timestamp value: " ++ s)) := by
  refine ⟨⟨rfl, rfl⟩, fun n => rfl, ?_, ?_, ?_, ?_, ?_⟩
  · intro s
    obtain ⟨l⟩ := s
    have h1 : String.mk l ++ "Z" = String.mk (l ++ ['Z']) := rfl
    have h2 : String.mk l ++ "+00:00" = String.mk (l ++ "+00:00".toList) := rfl
    have hne1 : String.mk (l ++ ['Z']) ≠ "" := by
      intro h
      have := congrArg String.data h
      simp at this
    have hne2 : String.mk (l ++ "+00:00".toList) ≠ "" := by
      intro h
      have := congrArg String.data h
      simp at this
    rw [h1, h2, parse_utc_timestamp_str _ hne1, parse_utc_timestamp_str _ hne2,
      parseUtcTimestampChars_toOption, parseUtcTimestampChars_toOption]
    have hl1 : (String.mk (l ++ ['Z'])).toList = l ++ ['Z'] := rfl
    have hl2 : (String.mk (l ++ "+00:00".toList)).toList = l ++ "+00:00".toList := rfl
    rw [hl1, hl2, zTo0000_strip_equiv]
  · intro dt h
    simp [dtUtcSeconds, h]
  · intro dt off h
    simp [dtUtcSeconds, h]
  · intro s dt hne hparse
    rw [parse_utc_timestamp_str _ hne]
    simp only [String.toList] at hparse
    simp [parseUtcTimestampChars, hparse]
  · intro s hne hparse
    rw [parse_utc_timestamp_str _ hne]
    simp only [String.toList] at hparse
    simp [parseUtcTimestampChars, hparse]

/-- Witness for C9 at concrete inputs: a numeric timestamp is rejected; the
`Z` form of a concrete instant agrees with its `+00:00` form; an aware value
is converted to UTC; an unparseable string is rejected; and the offset
arithmetic at a naive and at a `+01:00` datetime. -/
theorem parse_utc_timestamp_spec_witness :
    parse_utc_timestamp (some (.jnum 3)) = .error "Timestamp fields must be ISO-8601 strings"
    ∧ (parse_utc_timestamp (some (.jstr ("2024-03-01T12:00:00" ++ "Z")))).toOption =
        (parse_utc_timestamp (some (.jstr ("2024-03-01T12:00:00" ++ "+00:00")))).toOption
    ∧ parse_utc_timestamp (some (.jstr "2024-03-01T13:00:00+01:00")) =
        .ok (some (dtUtcSeconds ⟨2024, 3, 1, 13, 0, 0, some 60⟩))
    ∧ parse_utc_timestamp (some (.jstr "nonsense")) =
        .error ("Invalid timestamp value: " ++ "nonsense")
    ∧ dtUtcSeconds ⟨2024, 3, 1, 12, 0, 0, none⟩ =
        dtUtcSeconds { year := 2024, month := 3, day := 1, hour := 12, minute := 0,
                       second := 0, tzOffsetMinutes := some 0 }
    ∧ dtUtcSeconds ⟨2024, 3, 1, 13, 0, 0, some 60⟩ =
        dtUtcSeconds { year := 2024, month := 3, day := 1, hour := 13, minute := 0,
                       second := 0, tzOffsetMinutes := some 0 } - 60 * 60 :=
  ⟨parse_utc_timestamp_spec.2.1 3,
   parse_utc_timestamp_spec.2.2.1 "2024-03-01T12:00:00",
   parse_utc_timestamp_spec.2.2.2.2.2.1 "2024-03-01T13:00:00+01:00"
     ⟨2024, 3, 1, 13, 0, 0, some 60⟩ (by simp) rfl,
   parse_utc_timestamp_spec.2.2.2.2.2.2 "nonsense" (by simp) rfl,
   parse_utc_timestamp_spec.2.2.2.1 ⟨2024, 3, 1, 12, 0, 0, none⟩ rfl,
   parse_utc_timestamp_spec.2.2.2.2.1 ⟨2024, 3, 1, 13, 0, 0, some 60⟩ 60 rfl⟩

/-! ### Store lemmas for C1 and C2 -/

/-- `keyMatches` tests equality of the row key. -/
theorem keyMatches_iff (pid : Nat) (erid : String) (r : RunRow) :
    keyMatches pid erid r = true ↔ rowKey r = (pid, erid) := by
  simp [keyMatches, rowKey, Prod.ext_iff]

/-- The written row matches its own key. -/
theorem keyMatches_mkRow (pid : Nat) (f : RunFields) (now : Int) :
    keyMatches pid f.external_run_id (mkRow pid f now) = true := by
  simp [keyMatches, mkRow]

/-- `applyEvent` never changes a row's key. -/
theorem rowKey_applyEvent (pid : Nat) (now : Int) (f : RunFields) (r : RunRow) :
    rowKey (applyEvent pid now f r) = rowKey r := by
  unfold applyEvent
  split
  · next h => rw [(keyMatches_iff pid f.external_run_id r).mp h]; rfl
  · rfl

/-- `keyMatches` only looks at the key, so it is invariant under `applyEvent`. -/
theorem keyMatches_applyEvent (pid' : Nat) (erid : String) (pid : Nat) (now : Int)
    (f : RunFields) (r : RunRow) :
    keyMatches pid' erid (applyEvent pid now f r) = keyMatches pid' erid r := by
  cases h1 : keyMatches pid' erid r
  · cases h2 : keyMatches pid' erid (applyEvent pid now f r)
    · rfl
    · have := (keyMatches_iff pid' erid _).mp h2
      rw [rowKey_applyEvent] at this
      rw [(keyMatches_iff pid' erid r).mpr this] at h1
      exact absurd h1 (by simp)
  · exact (keyMatches_iff pid' erid _).mpr
      (by rw [rowKey_applyEvent]; exact (keyMatches_iff pid' erid r).mp h1)

/-- The update branch of `upsert_run`. -/
theorem upsert_run_eq_map (st : Store) (pid : Nat) (f : RunFields) (now : Int)
    (h : st.any (keyMatches pid f.external_run_id) = true) :
    upsert_run st pid f now = st.map (applyEvent pid now f) := by
  simp only [upsert_run, h, if_pos]
  rfl

/-- The insert branch of `upsert_run`. -/
theorem upsert_run_eq_append (st : Store) (pid : Nat) (f : RunFields) (now : Int)
    (h : st.any (keyMatches pid f.external_run_id) = false) :
    upsert_run st pid f now = st ++ [mkRow pid f now] := by
  simp only [upsert_run, h, Bool.false_eq_true, if_neg, not_false_iff]

/-- A row of the upsert result that does not carry the upserted key was
already in the store. -/
theorem mem_of_mem_upsert_ne (st : Store) (pid : Nat) (f : RunFields) (now : Int)
    (r : RunRow) (hr : r ∈ upsert_run st pid f now)
    (hne : rowKey r ≠ (pid, f.external_run_id)) : r ∈ st := by
  cases hany : st.any (keyMatches pid f.external_run_id)
  · rw [upsert_run_eq_append st pid f now hany] at hr
    rcases List.mem_append.mp hr with h | h
    · exact h
    · have : r = mkRow pid f now := by simpa using h
      rw [this] at hne
      exact absurd ((keyMatches_iff _ _ _).mp (keyMatches_mkRow pid f now)) hne
  · rw [upsert_run_eq_map st pid f now hany] at hr
    rcases List.mem_map.mp hr with ⟨r0, hr0, hr0e⟩
    unfold applyEvent at hr0e
    by_cases hk : keyMatches pid f.external_run_id r0 = true
    · rw [if_pos hk] at hr0e
      rw [← hr0e] at hne
      exact absurd ((keyMatches_iff _ _ _).mp (keyMatches_mkRow pid f now)) hne
    · rw [if_neg hk] at hr0e
      rw [← hr0e]
      exact hr0

/-- A row of the upsert result that carries the upserted key is the freshly
written row. -/
theorem eq_mkRow_of_mem_upsert (st : Store) (pid : Nat) (f : RunFields) (now : Int)
    (r : RunRow) (hr : r ∈ upsert_run st pid f now)
    (hk : rowKey r = (pid, f.external_run_id)) : r = mkRow pid f now := by
  cases hany : st.any (keyMatches pid f.external_run_id)
  · rw [upsert_run_eq_append st pid f now hany] at hr
    rcases List.mem_append.mp hr with h | h
    · have := List.any_eq_false.mp hany r h
      rw [(keyMatches_iff _ _ _).mpr hk] at this
      exact absurd rfl this
    · simpa using h
  · rw [upsert_run_eq_map st pid f now hany] at hr
    rcases List.mem_map.mp hr with ⟨r0, hr0, hr0e⟩
    unfold applyEvent at hr0e
    by_cases hk0 : keyMatches pid f.external_run_id r0 = true
    · rw [if_pos hk0] at hr0e
      exact hr0e.symm
    · rw [if_neg hk0] at hr0e
      rw [← hr0e] at hk
      exact absurd ((keyMatches_iff _ _ _).mpr hk) hk0

/-- Keys present before an upsert are still present after it. -/
theorem any_key_upsert_mono (st : Store) (pid pid' : Nat) (f : RunFields) (now : Int)
    (erid : String) (h : st.any (keyMatches pid' erid) = true) :
    (upsert_run st pid f now).any (keyMatches pid' erid) = true := by
  cases hany : st.any (keyMatches pid f.external_run_id)
  · rw [upsert_run_eq_append st pid f now hany]
    rw [List.any_append, h]
    rfl
  · rw [upsert_run_eq_map st pid f now hany]
    rcases List.any_eq_true.mp h with ⟨r, hr, hkr⟩
    refine List.any_eq_true.mpr ⟨applyEvent pid now f r, List.mem_map_of_mem _ hr, ?_⟩
    rw [keyMatches_applyEvent]
    exact hkr

/-- The upserted key is present after the upsert. -/
theorem any_key_upsert_self (st : Store) (pid : Nat) (f : RunFields) (now : Int) :
    (upsert_run st pid f now).any (keyMatches pid f.external_run_id) = true := by
  cases hany : st.any (keyMatches pid f.external_run_id)
  · rw [upsert_run_eq_append st pid f now hany]
    rw [List.any_append]
    simp [keyMatches_mkRow]
  · rw [upsert_run_eq_map st pid f now hany]
    rcases List.any_eq_true.mp hany with ⟨r, hr, hkr⟩
    refine List.any_eq_true.mpr ⟨applyEvent pid now f r, List.mem_map_of_mem _ hr, ?_⟩
    rw [keyMatches_applyEvent]
    exact hkr

/-- Keys present before a fold of upserts remain present. -/
theorem any_key_foldUpsert_mono (pid : Nat) (now : Int) :
    ∀ (fs : List RunFields) (st : Store) (pid' : Nat) (erid : String),
      st.any (keyMatches pid' erid) = true →
      (foldUpsert pid now fs st).any (keyMatches pid' erid) = true := by
  intro fs
  induction fs with
  | nil => intro st pid' erid h; exact h
  | cons f tl ih =>
    intro st pid' erid h
    exact ih _ pid' erid (any_key_upsert_mono st pid pid' f now erid h)

/-- Every event key of the fold is present in the result. -/
theorem any_key_foldUpsert_self (pid : Nat) (now : Int) :
    ∀ (fs : List RunFields) (st : Store) (g : RunFields), g ∈ fs →
      (foldUpsert pid now fs st).any (keyMatches pid g.external_run_id) = true := by
  intro fs
  induction fs with
  | nil => intro st g hg; cases hg
  | cons f tl ih =>
    intro st g hg
    rcases List.mem_cons.mp hg with h | h
    · subst h
      exact any_key_foldUpsert_mono pid now tl _ pid g.external_run_id
        (any_key_upsert_self st pid g now)
    · exact ih _ g h

/-- `upsert_run` preserves key uniqueness. -/
theorem WFStore_upsert (st : Store) (pid : Nat) (f : RunFields) (now : Int)
    (hwf : WFStore st) : WFStore (upsert_run st pid f now) := by
  cases hany : st.any (keyMatches pid f.external_run_id)
  · rw [upsert_run_eq_append st pid f now hany]
    unfold WFStore at hwf ⊢
    rw [List.map_append, List.map_singleton]
    rw [List.nodup_append]
    refine ⟨hwf, List.nodup_singleton _, ?_⟩
    intro k hk hk1
    have hk2 : k = (pid, f.external_run_id) := by
      simpa [rowKey, mkRow] using hk1
    rcases List.mem_map.mp hk with ⟨r, hr, hkr⟩
    have := List.any_eq_false.mp hany r hr
    rw [(keyMatches_iff _ _ _).mpr (by rw [hkr, hk2])] at this
    exact absurd rfl this
  · rw [upsert_run_eq_map st pid f now hany]
    unfold WFStore at hwf ⊢
    have : (st.map (applyEvent pid now f)).map rowKey = st.map rowKey := by
      rw [List.map_map]
      exact List.map_congr_left (fun r _ => rowKey_applyEvent pid now f r)
    rw [this]
    exact hwf

/-- A fold of upserts preserves key uniqueness. -/
theorem WFStore_foldUpsert (pid : Nat) (now : Int) :
    ∀ (fs : List RunFields) (st : Store), WFStore st →
      WFStore (foldUpsert pid now fs st) := by
  intro fs
  induction fs with
  | nil => intro st h; exact h
  | cons f tl ih => intro st h; exact ih _ (WFStore_upsert st pid f now h)

/-- `getLast?` of a cons in terms of the tail. -/
theorem getLast?_cons_eq {α : Type} (a : α) (l : List α) :
    (a :: l).getLast? = some ((l.getLast?).getD a) := by
  induction l generalizing a with
  | nil => rfl
  | cons b t ih => rw [List.getLast?_cons_cons, ih b, Option.getD_some]

/-- Unfolding `lastFor` over a cons. -/
theorem lastFor_cons (pid : Nat) (f : RunFields) (tl : List RunFields) (k : Nat × String) :
    lastFor pid (f :: tl) k =
      if ((pid, f.external_run_id) == k) = true
      then some ((lastFor pid tl k).getD f)
      else lastFor pid tl k := by
  by_cases h : ((pid, f.external_run_id) == k) = true
  · unfold lastFor
    rw [List.filter_cons, if_pos h, if_pos h, getLast?_cons_eq]
  · unfold lastFor
    rw [List.filter_cons, if_neg h, if_neg h]

/-- Applying one event then the last of the remaining events equals applying
the last of the whole event list. -/
theorem applyLast_applyEvent (pid : Nat) (now : Int) (f : RunFields)
    (tl : List RunFields) (r : RunRow) :
    applyLast pid now tl (applyEvent pid now f r) = applyLast pid now (f :: tl) r := by
  by_cases hk : keyMatches pid f.external_run_id r = true
  · have hkey : rowKey r = (pid, f.external_run_id) := (keyMatches_iff _ _ _).mp hk
    unfold applyEvent
    rw [if_pos hk]
    unfold applyLast
    have hmk : rowKey (mkRow pid f now) = (pid, f.external_run_id) :=
      (keyMatches_iff _ _ _).mp (keyMatches_mkRow pid f now)
    rw [hmk, hkey, lastFor_cons, if_pos (by simp)]
    cases lastFor pid tl (pid, f.external_run_id) with
    | none => simp
    | some g => simp
  · unfold applyEvent
    rw [if_neg hk]
    unfold applyLast
    rw [lastFor_cons, if_neg ?_]
    rw [beq_iff_eq]
    intro hEq
    exact hk ((keyMatches_iff _ _ _).mpr hEq.symm)

/-- When every event key is already present, a fold of upserts is a pure
in-place rewrite of the store. -/
theorem foldUpsert_eq_map (pid : Nat) (now : Int) :
    ∀ (fs : List RunFields) (st : Store),
      (∀ g ∈ fs, st.any (keyMatches pid g.external_run_id) = true) →
      foldUpsert pid now fs st = st.map (applyLast pid now fs) := by
  intro fs
  induction fs with
  | nil =>
    intro st _
    rw [show st.map (applyLast pid now []) = st.map id from
      List.map_congr_left (fun r _ => rfl), List.map_id]
    rfl
  | cons f tl ih =>
    intro st h
    have hf := h f (List.mem_cons_self f tl)
    have hkeys : ∀ g ∈ tl,
        (st.map (applyEvent pid now f)).any (keyMatches pid g.external_run_id) = true := by
      intro g hg
      rcases List.any_eq_true.mp (h g (List.mem_cons_of_mem f hg)) with ⟨r, hr, hkr⟩
      exact List.any_eq_true.mpr ⟨applyEvent pid now f r, List.mem_map_of_mem _ hr,
        by rw [keyMatches_applyEvent]; exact hkr⟩
    calc foldUpsert pid now (f :: tl) st
        = foldUpsert pid now tl (st.map (applyEvent pid now f)) := by
          show foldUpsert pid now tl (upsert_run st pid f now) = _
          rw [upsert_run_eq_map st pid f now hf]
      _ = (st.map (applyEvent pid now f)).map (applyLast pid now tl) := ih _ hkeys
      _ = st.map (applyLast pid now (f :: tl)) := by
          rw [List.map_map]
          exact List.map_congr_left (fun r _ => applyLast_applyEvent pid now f tl r)

/-- Rows whose key no event targets pass through a fold of upserts. -/
theorem mem_of_mem_foldUpsert_untouched (pid : Nat) (now : Int) :
    ∀ (fs : List RunFields) (st : Store) (r : RunRow),
      r ∈ foldUpsert pid now fs st → lastFor pid fs (rowKey r) = none → r ∈ st := by
  intro fs
  induction fs with
  | nil => intro st r h _; exact h
  | cons f tl ih =>
    intro st r h hnone
    rw [lastFor_cons] at hnone
    by_cases hbeq : ((pid, f.external_run_id) == rowKey r) = true
    · rw [if_pos hbeq] at hnone
      exact absurd hnone (by simp)
    · rw [if_neg hbeq] at hnone
      have hr1 : r ∈ upsert_run st pid f now := ih _ r h hnone
      exact mem_of_mem_upsert_ne st pid f now r hr1
        (fun hEq => hbeq (beq_iff_eq.mpr hEq.symm))

/-- Every row of a fold of upserts whose key is targeted by some event equals
the row written for the last such event. -/
theorem mem_foldUpsert_lastFor (pid : Nat) (now : Int) :
    ∀ (fs : List RunFields) (st : Store) (r : RunRow) (g : RunFields),
      r ∈ foldUpsert pid now fs st → lastFor pid fs (rowKey r) = some g →
      r = mkRow pid g now := by
  intro fs
  induction fs with
  | nil => intro st r g _ hl; exact absurd hl (by simp [lastFor])
  | cons f tl ih =>
    intro st r g h hl
    rw [lastFor_cons] at hl
    by_cases hbeq : ((pid, f.external_run_id) == rowKey r) = true
    · rw [if_pos hbeq] at hl
      cases htl : lastFor pid tl (rowKey r) with
      | some g1 =>
        rw [htl, Option.getD_some, Option.some.injEq] at hl
        rw [← hl]
        exact ih _ r g1 h htl
      | none =>
        rw [htl, Option.getD_none, Option.some.injEq] at hl
        have hr1 : r ∈ upsert_run st pid f now :=
          mem_of_mem_foldUpsert_untouched pid now tl _ r h htl
        have hkey : rowKey r = (pid, f.external_run_id) := (beq_iff_eq.mp hbeq).symm
        rw [eq_mkRow_of_mem_upsert st pid f now r hr1 hkey, hl]
    · rw [if_neg hbeq] at hl
      exact ih _ r g h hl

/-- Replaying the same mapped events over the result of a fold of upserts is
a no-op: the Run Store is a fixpoint of the replay. -/
theorem foldUpsert_replay (pid : Nat) (now : Int) (fs : List RunFields) (st : Store) :
    foldUpsert pid now fs (foldUpsert pid now fs st) = foldUpsert pid now fs st := by
  have hkeys : ∀ g ∈ fs,
      (foldUpsert pid now fs st).any (keyMatches pid g.external_run_id) = true :=
    fun g hg => any_key_foldUpsert_self pid now fs st g hg
  rw [foldUpsert_eq_map pid now fs (foldUpsert pid now fs st) hkeys]
  have hfix : ∀ r ∈ foldUpsert pid now fs st, applyLast pid now fs r = r := by
    intro r hr
    unfold applyLast
    cases hl : lastFor pid fs (rowKey r) with
    | none => rfl
    | some g => exact (mem_foldUpsert_lastFor pid now fs st r g hr hl).symm
  rw [List.map_congr_left hfix, List.map_id']

/-- A successful page ingestion is the fold of the upserts of the mapped
events. -/
theorem ingestPage_ok_elim (pid : Nat) (now : Int) :
    ∀ (es : List JVal) (st st' : Store), ingestPage pid now es st = .ok st' →
      ∃ fs, mapEvents es = .ok fs ∧ st' = foldUpsert pid now fs st := by
  intro es
  induction es with
  | nil =>
    intro st st' h
    simp only [ingestPage, Except.ok.injEq] at h
    exact ⟨[], rfl, h.symm⟩
  | cons e tl ih =>
    intro st st' h
    simp only [ingestPage] at h
    cases he : mapRunEvent e with
    | error msg => rw [he] at h; exact absurd h (by simp)
    | ok f =>
      rw [he] at h
      rcases ih _ _ h with ⟨fs, hfs, hst⟩
      refine ⟨f :: fs, ?_, hst⟩
      simp [mapEvents, he, hfs, bind, Except.bind]

/-- Conversely, when every event maps, page ingestion succeeds and equals the
fold of the upserts. -/
theorem ingestPage_of_mapEvents (pid : Nat) (now : Int) :
    ∀ (es : List JVal) (fs : List RunFields) (st : Store), mapEvents es = .ok fs →
      ingestPage pid now es st = .ok (foldUpsert pid now fs st) := by
  intro es
  induction es with
  | nil =>
    intro fs st h
    simp only [mapEvents, Except.ok.injEq] at h
    rw [← h]
    rfl
  | cons e tl ih =>
    intro fs st h
    simp only [mapEvents, bind, Except.bind] at h
    cases he : mapRunEvent e with
    | error msg => rw [he] at h; exact absurd h (by simp)
    | ok f =>
      rw [he] at h
      cases htl : mapEvents tl with
      | error msg => rw [htl] at h; exact absurd h (by simp)
      | ok fs' =>
        rw [htl, Except.ok.injEq] at h
        subst h
        simp only [ingestPage, he]
        exact ih fs' (upsert_run st pid f now) htl

/-- C1: replaying the ingestion of the same page (same pipeline, same events,
same order, same clock) over the store it produced leaves the Run Store in
exactly the same state, and the `(pipeline_id, external_run_id)` key
uniqueness (no duplicate rows, same count) is preserved. -/
theorem ingest_page_replay_idempotent (pid : Nat) (now : Int) (events : List JVal)
    (st st' : Store) (h : ingestPage pid now events st = .ok st') (hwf : WFStore st) :
    ingestPage pid now events st' = .ok st' ∧ WFStore st' := by
  rcases ingestPage_ok_elim pid now events st st' h with ⟨fs, hfs, hst⟩
  subst hst
  refine ⟨?_, WFStore_foldUpsert pid now fs st hwf⟩
  rw [ingestPage_of_mapEvents pid now events fs _ hfs, foldUpsert_replay]

/-- Witness for C1 at a concrete page: ingesting one `success` event into the
empty store and replaying it over the result is a no-op, and the result has
unique keys. -/
theorem ingest_page_replay_idempotent_witness :
    ingestPage 1 0 [JVal.jobj [("id", .jstr "r1"), ("status", .jstr "success")]]
        [{ pipeline_id := 1, external_run_id := "r1", status := .success,
           started_at := none, finished_at := none, duration_seconds := none,
           rows_processed := none, error_message := none, status_reason := none,
           payload := [("id", .jstr "r1"), ("status", .jstr "success")],
           ingested_at := 0, updated_at := 0 }] =
      .ok [{ pipeline_id := 1, external_run_id := "r1", status := .success,
             started_at := none, finished_at := none, duration_seconds := none,
             rows_processed := none, error_message := none, status_reason := none,
             payload := [("id", .jstr "r1"), ("status", .jstr "success")],
             ingested_at := 0, updated_at := 0 }]
    ∧ WFStore [{ pipeline_id := 1, external_run_id := "r1", status := .success,
                 started_at := none, finished_at := none, duration_seconds := none,
                 rows_processed := none, error_message := none, status_reason := none,
                 payload := [("id", .jstr "r1"), ("status", .jstr "success")],
                 ingested_at := 0, updated_at := 0 }] :=
  ingest_page_replay_idempotent 1 0
    [JVal.jobj [("id", .jstr "r1"), ("status", .jstr "success")]] [] _ rfl (by decide)

/-- The in-place rewrite of a conflicting upsert leaves exactly the freshly
written row at the conflicting key. -/
theorem filter_map_applyEvent (pid : Nat) (now : Int) (f : RunFields) :
    ∀ (st : Store), WFStore st → st.any (keyMatches pid f.external_run_id) = true →
      (st.map (applyEvent pid now f)).filter (keyMatches pid f.external_run_id) =
        [mkRow pid f now] := by
  intro st
  induction st with
  | nil => intro _ h; simp at h
  | cons r tl ih =>
    intro hwf hany
    have hwf' : WFStore tl := by
      unfold WFStore at hwf ⊢
      simp only [List.map_cons, List.nodup_cons] at hwf
      exact hwf.2
    by_cases hk : keyMatches pid f.external_run_id r = true
    · have hkey : rowKey r = (pid, f.external_run_id) := (keyMatches_iff _ _ _).mp hk
      have hnotin : rowKey r ∉ tl.map rowKey := by
        unfold WFStore at hwf
        simp only [List.map_cons, List.nodup_cons] at hwf
        exact hwf.1
      have hnotl : ∀ r' ∈ tl, keyMatches pid f.external_run_id r' = false := by
        intro r' hr'
        cases h' : keyMatches pid f.external_run_id r'
        · rfl
        · have : rowKey r' = rowKey r := ((keyMatches_iff _ _ _).mp h').trans hkey.symm
          exact absurd (this ▸ List.mem_map_of_mem rowKey hr') hnotin
      have hhead : applyEvent pid now f r = mkRow pid f now := by
        unfold applyEvent
        rw [if_pos hk]
      have htail : (tl.map (applyEvent pid now f)).filter
          (keyMatches pid f.external_run_id) = [] := by
        refine List.filter_eq_nil_iff.mpr ?_
        intro x hx
        rcases List.mem_map.mp hx with ⟨r', hr', hre⟩
        rw [← hre, keyMatches_applyEvent, hnotl r' hr']
        simp
      rw [List.map_cons, hhead, List.filter_cons, if_pos (keyMatches_mkRow pid f now), htail]
    · have hany' : tl.any (keyMatches pid f.external_run_id) = true := by
        have hkf : keyMatches pid f.external_run_id r = false := by
          simpa using hk
        rw [List.any_cons, hkf] at hany
        simpa using hany
      have hhead : applyEvent pid now f r = r := by
        unfold applyEvent
        rw [if_neg hk]
      rw [List.map_cons, hhead, List.filter_cons, if_neg hk]
      exact ih hwf' hany'

/-- C2: for every `(pipeline_id, external_run_id)` at most one Run row exists
after an upsert (key uniqueness is preserved); the upsert leaves exactly one
row at the upserted key, carrying all the later field values and the later
`ingested_at` wholesale; rows at other keys survive untouched; and the row
count shows no second row is created and no row is deleted. -/
theorem upsert_run_overwrite_spec (st : Store) (pid : Nat) (f : RunFields) (now : Int)
    (hwf : WFStore st) :
    WFStore (upsert_run st pid f now)
    ∧ (upsert_run st pid f now).filter (keyMatches pid f.external_run_id) =
        [mkRow pid f now]
    ∧ (∀ r ∈ st, keyMatches pid f.external_run_id r = false →
        r ∈ upsert_run st pid f now)
    ∧ (upsert_run st pid f now).length =
        (if st.any (keyMatches pid f.external_run_id) = true
         then st.length else st.length + 1) := by
  refine ⟨WFStore_upsert st pid f now hwf, ?_, ?_, ?_⟩
  · cases hany : st.any (keyMatches pid f.external_run_id)
    · rw [upsert_run_eq_append st pid f now hany, List.filter_append]
      have h1 : st.filter (keyMatches pid f.external_run_id) = [] := by
        refine List.filter_eq_nil_iff.mpr ?_
        intro r hr
        rw [List.any_eq_false] at hany
        simp [hany r hr]
      rw [h1, List.nil_append, List.filter_cons, if_pos (keyMatches_mkRow pid f now)]
      rfl
    · rw [upsert_run_eq_map st pid f now hany]
      exact filter_map_applyEvent pid now f st hwf hany
  · intro r hr hkr
    cases hany : st.any (keyMatches pid f.external_run_id)
    · rw [upsert_run_eq_append st pid f now hany]
      exact List.mem_append_left _ hr
    · rw [upsert_run_eq_map st pid f now hany]
      have hre : applyEvent pid now f r = r := by
        unfold applyEvent
        rw [if_neg (by simp [hkr])]
      exact hre ▸ List.mem_map_of_mem _ hr
  · cases hany : st.any (keyMatches pid f.external_run_id)
    · rw [upsert_run_eq_append st pid f now hany]
      simp
    · rw [upsert_run_eq_map st pid f now hany]
      simp

/-- Witness for C2 at the spec's status progression example: upsert run-1 as
`running`, then as `success` with finish time and duration — one row, all
later values, nothing deleted. -/
theorem upsert_run_overwrite_spec_witness :
    WFStore (upsert_run (upsert_run [] 1 fRunning 5) 1 fSuccess 6)
    ∧ (upsert_run (upsert_run [] 1 fRunning 5) 1 fSuccess 6).filter
        (keyMatches 1 fSuccess.external_run_id) = [mkRow 1 fSuccess 6]
    ∧ (upsert_run (upsert_run [] 1 fRunning 5) 1 fSuccess 6).length =
        (if (upsert_run [] 1 fRunning 5).any (keyMatches 1 fSuccess.external_run_id) = true
         then (upsert_run [] 1 fRunning 5).length
         else (upsert_run [] 1 fRunning 5).length + 1) :=
  ⟨(upsert_run_overwrite_spec (upsert_run [] 1 fRunning 5) 1 fSuccess 6 (by decide)).1,
   (upsert_run_overwrite_spec (upsert_run [] 1 fRunning 5) 1 fSuccess 6 (by decide)).2.1,
   (upsert_run_overwrite_spec (upsert_run [] 1 fRunning 5) 1 fSuccess 6 (by decide)).2.2.2⟩

/-! ### C10: empty-string external ids -/

/-- Pipelines processed and fetches issued by the per-pipeline fold: only
pipelines with a truthy (non-`None`, non-empty) external id are processed,
and every fetch carries a non-empty external id. -/
theorem ingestPassAux_counts (fetch : String → Option String → Except ClientError Page)
    (now : Int) (fuel : Nat) :
    ∀ (ps : List PipelineRow) (st : Store) (res : PassResult),
      ingestPassAux fetch now fuel ps st = some (.ok res) →
      res.pipelines_processed =
          (ps.filter (fun p => !(p.external_id.getD "" == ""))).length
        ∧ ∀ pr ∈ res.trace, pr.1 ≠ "" := by
  intro ps
  induction ps with
  | nil =>
    intro st res h
    simp only [ingestPassAux, Option.some.injEq, Except.ok.injEq] at h
    subst h
    exact ⟨rfl, by intro pr hpr; cases hpr⟩
  | cons p tl ih =>
    intro st res h
    cases hext : p.external_id with
    | none =>
      simp only [ingestPassAux, hext] at h
      rcases ih st res h with ⟨h1, h2⟩
      refine ⟨?_, h2⟩
      rw [List.filter_cons, if_neg (by simp [hext])]
      exact h1
    | some eid =>
      simp only [ingestPassAux, hext] at h
      by_cases heid : eid = ""
      · rw [if_pos heid] at h
        rcases ih st res h with ⟨h1, h2⟩
        refine ⟨?_, h2⟩
        rw [List.filter_cons, if_neg (by simp [hext, heid])]
        exact h1
      · rw [if_neg heid] at h
        cases hloop : ingest_pipeline_loop fetch now p.id eid st none fuel with
        | none => rw [hloop] at h; exact absurd h (by simp)
        | some lr =>
          rw [hloop] at h
          cases lr with
          | error e => exact absurd h (by simp)
          | ok pr =>
            dsimp only at h
            cases haux : ingestPassAux fetch now fuel tl pr.store with
            | none => rw [haux] at h; exact absurd h (by simp)
            | some ar =>
              rw [haux] at h
              cases ar with
              | error e => exact absurd h (by simp)
              | ok rest =>
                dsimp only at h
                simp only [Option.some.injEq, Except.ok.injEq] at h
                subst h
                rcases ih pr.store rest haux with ⟨h1, h2⟩
                constructor
                · show rest.pipelines_processed + 1 = _
                  rw [List.filter_cons, if_pos (by simp [hext, heid])]
                  rw [List.length_cons, h1]
                · intro x hx
                  rcases List.mem_append.mp hx with hx1 | hx2
                  · rcases List.mem_map.mp hx1 with ⟨c, _, hc⟩
                    rw [← hc]
                    exact heid
                  · exact h2 x hx2

/-- C10: a pipeline whose `external_id` is the empty string passes the
eligibility filter (which only excludes NULL ids), yet the orchestrator
silently skips it: no fetch is issued for it and `pipelines_processed`
counts exactly the eligible pipelines with a truthy external id. -/
theorem empty_external_id_spec :
    (∀ (p : PipelineRow) (ps : List PipelineRow), p.external_id = some "" →
        p.pipeline_type = .ingestion → p.is_active = true → p ∈ ps →
        p ∈ list_ingestion_pipelines_with_external_id ps)
    ∧ (∀ fetch (now : Int) (fuel : Nat) (ps : List PipelineRow) (st : Store)
          (res : PassResult),
        ingest_external_runs fetch now fuel ps st = some (.ok res) →
        res.pipelines_processed =
            ((list_ingestion_pipelines_with_external_id ps).filter
              (fun p => !(p.external_id.getD "" == ""))).length
          ∧ ∀ pr ∈ res.trace, pr.1 ≠ "") := by
  constructor
  · intro p ps hext htype hact hmem
    unfold list_ingestion_pipelines_with_external_id
    refine List.mem_filter.mpr ⟨hmem, ?_⟩
    simp [hext, htype, hact]
  · intro fetch now fuel ps st res h
    exact ingestPassAux_counts fetch now fuel
      (list_ingestion_pipelines_with_external_id ps) st res h

/-- Witness for C10: with one real pipeline and one empty-external-id
pipeline, the empty one is eligible but the pass processes exactly one
pipeline and no fetch carries the empty id. -/
theorem empty_external_id_spec_witness :
    emptyExtPipeline ∈
        list_ingestion_pipelines_with_external_id [examplePipeline, emptyExtPipeline]
    ∧ (PassResult.pipelines_processed ⟨[], 1, 1, 0, [("ext-1", none)]⟩ =
          ((list_ingestion_pipelines_with_external_id [examplePipeline, emptyExtPipeline]).filter
            (fun p => !(p.external_id.getD "" == ""))).length
        ∧ ∀ pr ∈ PassResult.trace ⟨[], 1, 1, 0, [("ext-1", none)]⟩, pr.1 ≠ "") :=
  ⟨empty_external_id_spec.1 emptyExtPipeline [examplePipeline, emptyExtPipeline]
     rfl rfl rfl (by simp),
   empty_external_id_spec.2 emptyFetch 0 10 [examplePipeline, emptyExtPipeline] []
     ⟨[], 1, 1, 0, [("ext-1", none)]⟩ rfl⟩

/-! ### C4: cursor-driven pagination -/

/-- C4: the pagination loop maps and upserts every event of the fetched page
in list order, stops exactly when the page's `next_cursor` is null or empty,
and otherwise continues with that cursor, prepending the current cursor to
the fetch trace and accumulating page/run counts; over the three chained
example pages the pass issues exactly three fetches with cursors
`[null, "cursor-2", "cursor-3"]` and produces a row for every event in page
order; and a pipeline whose single page is empty still increments
`pipelines_processed`. -/
theorem pagination_spec :
    (∀ (fetch : String → Option String → Except ClientError Page) (now : Int)
        (pid : Nat) (eid : String) (st st' : Store) (cursor : Option String)
        (page : Page) (fuel : Nat),
        fetch eid cursor = .ok page → ingestPage pid now page.runs st = .ok st' →
        (page.next_cursor = none ∨ page.next_cursor = some "") →
        ingest_pipeline_loop fetch now pid eid st cursor (fuel + 1) =
          some (.ok ⟨st', 1, page.runs.length, [cursor]⟩))
    ∧ (∀ (fetch : String → Option String → Except ClientError Page) (now : Int)
        (pid : Nat) (eid : String) (st st' : Store) (cursor : Option String)
        (page : Page) (c : String) (pr : PipelineResult) (fuel : Nat),
        fetch eid cursor = .ok page → ingestPage pid now page.runs st = .ok st' →
        page.next_cursor = some c → c ≠ "" →
        ingest_pipeline_loop fetch now pid eid st' (some c) fuel = some (.ok pr) →
        ingest_pipeline_loop fetch now pid eid st cursor (fuel + 1) =
          some (.ok ⟨pr.store, pr.pages + 1, page.runs.length + pr.runs,
                     cursor :: pr.trace⟩))
    ∧ ingest_external_runs exampleFetch 0 10 [examplePipeline] [] =
        some (.ok ⟨[{ pipeline_id := 1, external_run_id := "r1", status := .success,
                      started_at := none, finished_at := none, duration_seconds := none,
                      rows_processed := none, error_message := none, status_reason := none,
                      payload := [("id", .jstr "r1"), ("status", .jstr "success")],
                      ingested_at := 0, updated_at := 0 },
                    { pipeline_id := 1, external_run_id := "r2", status := .running,
                      started_at := none, finished_at := none, duration_seconds := none,
                      rows_processed := none, error_message := none, status_reason := none,
                      payload := [("id", .jstr "r2"), ("status", .jstr "running")],
                      ingested_at := 0, updated_at := 0 },
                    { pipeline_id := 1, external_run_id := "r3", status := .failed,
                      started_at := none, finished_at := none, duration_seconds := none,
                      rows_processed := none, error_message := none, status_reason := none,
                      payload := [("id", .jstr "r3"), ("status", .jstr "failed")],
                      ingested_at := 0, updated_at := 0 }], 1, 3, 3,
                   [("ext-1", none), ("ext-1", some "cursor-2"),
                    ("ext-1", some "cursor-3")]⟩)
    ∧ ingest_external_runs emptyFetch 0 10 [examplePipeline] [] =
        some (.ok ⟨[], 1, 1, 0, [("ext-1", none)]⟩) := by
  refine ⟨?_, ?_, by rfl, by rfl⟩
  · intro fetch now pid eid st st' cursor page fuel hfetch hpage hstop
    rcases hstop with hnext | hnext
    · simp only [ingest_pipeline_loop, hfetch, hpage, hnext]
    · simp [ingest_pipeline_loop, hfetch, hpage, hnext]
  · intro fetch now pid eid st st' cursor page c pr fuel hfetch hpage hnext hc hinner
    simp only [ingest_pipeline_loop, hfetch, hpage, hnext]
    rw [if_neg hc, hinner]

/-- Witness for C4: the stop clause at a client whose single page is empty
and final, and the continue clause at the example's second page chaining to
its third and last page. -/
theorem pagination_spec_witness :
    ingest_pipeline_loop emptyFetch 0 1 "ext-1" [] none (0 + 1) =
      some (.ok ⟨[], 1, (Page.runs ⟨[], none⟩).length, [none]⟩)
    ∧ ingest_pipeline_loop exampleFetch 0 1 "ext-1" [] (some "cursor-2") (1 + 1) =
        some (.ok ⟨[{ pipeline_id := 1, external_run_id := "r2", status := .running,
                      started_at := none, finished_at := none, duration_seconds := none,
                      rows_processed := none, error_message := none, status_reason := none,
                      payload := [("id", .jstr "r2"), ("status", .jstr "running")],
                      ingested_at := 0, updated_at := 0 },
                    { pipeline_id := 1, external_run_id := "r3", status := .failed,
                      started_at := none, finished_at := none, duration_seconds := none,
                      rows_processed := none, error_message := none, status_reason := none,
                      payload := [("id", .jstr "r3"), ("status", .jstr "failed")],
                      ingested_at := 0, updated_at := 0 }], 1 + 1,
                   examplePage2.runs.length + 1,
                   some "cursor-2" :: [some "cursor-3"]⟩) :=
  ⟨pagination_spec.1 emptyFetch 0 1 "ext-1" [] [] none ⟨[], none⟩ 0 rfl rfl (Or.inl rfl),
   pagination_spec.2.1 exampleFetch 0 1 "ext-1" []
     [{ pipeline_id := 1, external_run_id := "r2", status := .running,
        started_at := none, finished_at := none, duration_seconds := none,
        rows_processed := none, error_message := none, status_reason := none,
        payload := [("id", .jstr "r2"), ("status", .jstr "running")],
        ingested_at := 0, updated_at := 0 }]
     (some "cursor-2") examplePage2 "cursor-3"
     ⟨[{ pipeline_id := 1, external_run_id := "r2", status := .running,
         started_at := none, finished_at := none, duration_seconds := none,
         rows_processed := none, error_message := none, status_reason := none,
         payload := [("id", .jstr "r2"), ("status", .jstr "running")],
         ingested_at := 0, updated_at := 0 },
       { pipeline_id := 1, external_run_id := "r3", status := .failed,
         started_at := none, finished_at := none, duration_seconds := none,
         rows_processed := none, error_message := none, status_reason := none,
         payload := [("id", .jstr "r3"), ("status", .jstr "failed")],
         ingested_at := 0, updated_at := 0 }], 1, 1, [some "cursor-3"]⟩
     1 rfl rfl rfl (by simp) rfl⟩
